import Mathlib

/-!
Verification of the reconciliation core of `tagger.py` (mint-amazon-tagger).

The development shallowly embeds the functions of `tagger.py` that the
verified properties talk about.  Conventions used throughout:

* Monetary values are exact rationals (`ℚ`).  The reports feed integer
  micro-usd amounts into the program; Python's true division (`/`) can
  produce non-integral values (e.g. in `adjust_amazon_item_quantity`), which
  the source holds as IEEE doubles and this embedding holds exactly in `ℚ`.
  All concrete inputs used below make those divisions exact, so the two
  semantics agree on every theorem stated here.
* Dates are day numbers (`ℤ`); `(a - b).days` of the source is `a - b`.
* Python dict records become structures; a field read of a missing key and
  other fatal behaviours (assertion failures, index errors, unbound names)
  are modelled with `Except String`, the error text naming the Python
  exception class.
* Arithmetic inside definitions uses the kernel-computable wrappers
  `qAdd`, `qSub`, `qMul`, `qDiv`, `qAbs` (built on `mkRat`); the bridge
  lemmas `qAdd_eq` &c. identify them with the field operations of `ℚ`.
-/

/-- Kernel-computable addition on `ℚ` (same value as `+`, see `qAdd_eq`). -/
def qAdd (a b : ℚ) : ℚ := mkRat (a.num * (b.den : ℤ) + b.num * (a.den : ℤ)) (a.den * b.den)

/-- Kernel-computable negation on `ℚ`. -/
def qNeg (a : ℚ) : ℚ := mkRat (-a.num) a.den

/-- Kernel-computable subtraction on `ℚ`. -/
def qSub (a b : ℚ) : ℚ := qAdd a (qNeg b)

/-- Kernel-computable multiplication on `ℚ`. -/
def qMul (a b : ℚ) : ℚ := mkRat (a.num * b.num) (a.den * b.den)

/-- Kernel-computable inverse on `ℚ` (0 for 0, as in Lean). -/
def qInv (b : ℚ) : ℚ := mkRat ((b.den : ℤ) * (if b.num < 0 then -1 else 1)) b.num.natAbs

/-- Kernel-computable division on `ℚ`. -/
def qDiv (a b : ℚ) : ℚ := qMul a (qInv b)

/-- Kernel-computable absolute value on `ℚ`. -/
def qAbs (a : ℚ) : ℚ := mkRat (a.num.natAbs : ℤ) a.den

/-- Floor of a rational as an integer (kernel-computable). -/
def rfloor (a : ℚ) : ℤ := a.num / (a.den : ℤ)

deriving instance DecidableEq for Except

/-- Tolerance under which two micro-usd amounts are considered equal
(`MICRO_USD_EPS`, tagger.py line 59). -/
def MICRO_USD_EPS : ℚ := 50

/-- One cent in micro-usd (`CENT_MICRO_USD`, tagger.py line 60). -/
def CENT_MICRO_USD : ℚ := 10000

/-- Dollar-valued epsilon (`DOLLAR_EPS = 0.0001`, tagger.py line 62). -/
def DOLLAR_EPS : ℚ := mkRat 1 10000

/-- Round half to even, the rounding mode of Python's builtin `round`. -/
def roundHalfEven (x : ℚ) : ℤ :=
  let f := rfloor x
  let r := qSub x (mkRat f 1)
  if r < mkRat 1 2 then f
  else if mkRat 1 2 < r then f + 1
  else if f % 2 = 0 then f else f + 1

/-- Python `round(x, 2)` on an exact rational. -/
def pyRound2 (x : ℚ) : ℚ := mkRat (roundHalfEven (qMul x 100)) 100

/-- Python `round(x, 1)` on an exact rational. -/
def pyRound1 (x : ℚ) : ℚ := mkRat (roundHalfEven (qMul x 10)) 10

/-- Embeds `round_usd` (tagger.py lines 127-128): `round(curr + DOLLAR_EPS, 2)`. -/
def round_usd (curr : ℚ) : ℚ := pyRound2 (qAdd curr DOLLAR_EPS)

/-- Python `int()` truncation toward zero, applied to an exact rational. -/
def pyInt (q : ℚ) : ℤ := q.num.tdiv (q.den : ℤ)

/-- Whitespace stripped by Python's `float(str)`: the characters for which
`Py_UNICODE_ISSPACE` holds, restricted to ASCII (0x09-0x0D, 0x1C-0x1F and
the space). -/
def pyWhitespace (c : Char) : Bool :=
  decide (c.toNat = 32 ∨ (9 ≤ c.toNat ∧ c.toNat ≤ 13) ∨ (28 ≤ c.toNat ∧ c.toNat ≤ 31))

/-- Numeric value of an ASCII digit, if the character is one. -/
def digitVal (c : Char) : Option Nat :=
  if 48 ≤ c.toNat ∧ c.toNat ≤ 57 then some (c.toNat - 48) else none

/-- Value of a digit list read most-significant first. -/
def digitsVal (ds : List Nat) : ℕ := ds.foldl (fun acc d => 10 * acc + d) 0

/-- ASCII lower-casing, for the case-insensitive `inf`/`nan` literals. -/
def asciiLower (c : Char) : Char :=
  if 65 ≤ c.toNat ∧ c.toNat ≤ 90 then Char.ofNat (c.toNat + 32) else c

/-- Splits a leading maximal run of ASCII digits and underscores off a
character list (the shape CPython's number scanner consumes before
validating the underscore placement). -/
def takeDigitRun : List Char → List Char × List Char
  | [] => ([], [])
  | c :: cs =>
    if (digitVal c).isSome ∨ c = '_' then
      (c :: (takeDigitRun cs).1, (takeDigitRun cs).2)
    else ([], c :: cs)

/-- No two adjacent underscores in a run. -/
def noDoubleUnd : List Char → Bool
  | [] => true
  | [_] => true
  | a :: b :: rest => decide (¬(a = '_' ∧ b = '_')) && noDoubleUnd (b :: rest)

/-- CPython accepts a digit-and-underscore run when it is empty or starts
and ends with a digit with no two adjacent underscores (so every underscore
sits directly between two digits). -/
def runOk : List Char → Bool
  | [] => true
  | c :: cs =>
    (digitVal c).isSome
      && ((c :: cs).getLast?.elim false (fun d => (digitVal d).isSome))
      && noDoubleUnd (c :: cs)

/-- Number of actual digits in a run. -/
def runDigitCount (r : List Char) : ℕ := (r.filter (fun c => c ≠ '_')).length

/-- Numeric value of a run, underscores removed. -/
def runVal (r : List Char) : ℕ :=
  digitsVal ((r.filter (fun c => c ≠ '_')).map (fun c => (digitVal c).getD 0))

/-- A CPython float value as the source observes it: a finite value (held
exactly), an infinity, or NaN. -/
inductive PyFloat where
  | finite (q : ℚ)
  | inf
  | negInf
  | nan
deriving DecidableEq

/-- The smallest magnitude that IEEE double round-to-nearest-even rounds to
infinity: `2 ^ 1024 - 2 ^ 970`. -/
def DBL_OVERFLOW : ℚ := mkRat (Int.ofNat (2 ^ 1024 - 2 ^ 970)) 1

/-- Modelled from the source's use of Python's builtin `float(str)`
(tagger.py line 153): an optionally signed decimal literal with optional
fraction, exponent and underscore digit separators, or the case-insensitive
`inf`/`infinity`/`nan` literals; a finite result of magnitude at least
`DBL_OVERFLOW` becomes the corresponding infinity, as CPython overflows
(e.g. `1e400`).  Finite values are held exactly rather than rounded to the
nearest double, and non-ASCII digits, signs and whitespace accepted by
CPython are not modelled; the ASCII hypothesis on the theorems below marks
that boundary. -/
def pyFloatCore (cs : List Char) : Option PyFloat :=
  let sgn : Bool × List Char :=
    match cs with
    | c :: r => if c = '+' then (false, r) else if c = '-' then (true, r) else (false, cs)
    | [] => (false, [])
  let low := sgn.2.map asciiLower
  if low = ['i', 'n', 'f'] ∨ low = ['i', 'n', 'f', 'i', 'n', 'i', 't', 'y'] then
    some (if sgn.1 then PyFloat.negInf else PyFloat.inf)
  else if low = ['n', 'a', 'n'] then some PyFloat.nan
  else
    let ip := takeDigitRun sgn.2
    let fp : List Char × List Char :=
      match ip.2 with
      | c :: r => if c = '.' then takeDigitRun r else ([], ip.2)
      | [] => ([], [])
    if ¬runOk ip.1 ∨ ¬runOk fp.1 ∨ (runDigitCount ip.1 = 0 ∧ runDigitCount fp.1 = 0) then
      none
    else
      let mant0 : ℚ := qAdd (mkRat (Int.ofNat (runVal ip.1)) 1)
        (mkRat (Int.ofNat (runVal fp.1)) (10 ^ runDigitCount fp.1))
      let mant : ℚ := if sgn.1 then qNeg mant0 else mant0
      let fin : Option ℚ :=
        match fp.2 with
        | [] => some mant
        | c :: r =>
          if c = 'e' ∨ c = 'E' then
            let esgn : Bool × List Char :=
              match r with
              | c2 :: r2 =>
                if c2 = '+' then (false, r2) else if c2 = '-' then (true, r2) else (false, r)
              | [] => (false, [])
            let ep := takeDigitRun esgn.2
            if ¬runOk ep.1 ∨ runDigitCount ep.1 = 0 ∨ ¬ep.2.isEmpty then none
            else
              some (if esgn.1 then qDiv mant (mkRat (Int.ofNat (10 ^ runVal ep.1)) 1)
                    else qMul mant (mkRat (Int.ofNat (10 ^ runVal ep.1)) 1))
          else none
      match fin with
      | none => none
      | some v =>
        if DBL_OVERFLOW ≤ v then some PyFloat.inf
        else if v ≤ qNeg DBL_OVERFLOW then some PyFloat.negInf
        else some (PyFloat.finite v)

/-- Python `float(str)` including its whitespace stripping. -/
def pyFloatOfString (s : String) : Option PyFloat :=
  pyFloatCore
    (((s.toList.dropWhile (fun c => pyWhitespace c)).reverse.dropWhile
      (fun c => pyWhitespace c)).reverse)

/-- Embeds `parse_usd_as_float` (tagger.py lines 145-155).  The `amount[0]`
subscript of line 150 sits outside the `try` block, so a nonempty string
that becomes empty after comma removal raises an uncaught `IndexError`;
every `ValueError` of `float` is caught and converted to `0.0`, but an
infinite or NaN float is returned as such (CPython raises no exception
here). -/
def parse_usd_as_float (amount : String) : Except String PyFloat :=
  if amount = "" then Except.ok (PyFloat.finite 0)
  else
    match amount.toList.filter (fun c => c ≠ ',') with
    | [] => Except.error ("IndexError")
    | c :: rest =>
      match pyFloatOfString (String.mk (if c = '$' then rest else c :: rest)) with
      | some v => Except.ok v
      | none => Except.ok (PyFloat.finite 0)

/-- Embeds `parse_usd_as_micro_usd` (tagger.py lines 141-142), whose
`int(...)` sits outside any handler: CPython raises `OverflowError` on an
infinite float (also when the finite rounded value only overflows at the
`* 1000000` step, e.g. for `1e303`) and `ValueError` on NaN.  The finite
overflow test compares the exact product against the IEEE boundary; only
inputs within one double-ulp of that boundary could classify differently
from the source's double arithmetic. -/
def parse_usd_as_micro_usd (amount : String) : Except String ℤ :=
  match parse_usd_as_float amount with
  | Except.error e => Except.error e
  | Except.ok PyFloat.inf => Except.error ("OverflowError")
  | Except.ok PyFloat.negInf => Except.error ("OverflowError")
  | Except.ok PyFloat.nan => Except.error ("ValueError")
  | Except.ok (PyFloat.finite v) =>
    let m := qMul (round_usd v) 1000000
    if DBL_OVERFLOW ≤ qAbs m then Except.error ("OverflowError")
    else Except.ok (pyInt m)

/-- Decimal digits of a natural number (fuel-indexed, most significant first). -/
def natDigits : Nat → Nat → List Char
  | 0, _ => []
  | fuel + 1, n =>
    if n < 10 then [Char.ofNat (48 + n)]
    else natDigits fuel (n / 10) ++ [Char.ofNat (48 + n % 10)]

/-- Decimal rendering of a natural number, as Python `str` renders it. -/
def natStr (n : Nat) : String := String.mk (natDigits (n + 1) n)

/-- Decimal rendering of an integer. -/
def intStr (i : ℤ) : String := if i < 0 then "-" ++ natStr i.natAbs else natStr i.natAbs

/-- Rendering of a monetary value for dict-key building; report amounts are
integers, which Python renders in plain decimal exactly as this does. -/
def ratStr (q : ℚ) : String :=
  if q.den = 1 then intStr q.num else intStr q.num ++ "/" ++ natStr q.den

/-- Rendering of an optional date, as Python renders `None`/a date value. -/
def dateStr : Option ℤ → String
  | none => "None"
  | some d => intStr d

/-- Python `str.split(' ')` on the character list (keeps empty pieces). -/
def splitSp : List Char → List (List Char)
  | [] => [[]]
  | c :: cs =>
    match splitSp cs with
    | [] => [[c]]
    | w :: ws => if c = ' ' then [] :: w :: ws else (c :: w) :: ws

/-- Python `s.split(' ')` returning strings. -/
def pySplitSpace (s : String) : List String := (splitSp s.toList).map (fun w => String.mk w)

/-- Membership in Python's `string.printable`. -/
def pyPrintable (c : Char) : Bool :=
  (32 ≤ c.toNat ∧ c.toNat ≤ 126) ∨ ['\t', '\n', '\r', '\x0b', '\x0c'].contains c

/-- Trailing characters stripped by `truncate_title` (tagger.py line 201). -/
def junkChars : List Char :=
  [',', '.', '-', '(', ')', '[', ']', Char.ofNat 123, Char.ofNat 125, '\\', '/',
   '|', '~', '!', '@', '#', '$', '%', '^', '&', '*', '_', '+', '=',
   Char.ofNat 96, Char.ofNat 39, Char.ofNat 34, ' ']

/-- Word-collection loop of `truncate_title` (tagger.py lines 193-198);
`len(word) / 2 < target_length` is Python true division, hence `qDiv`. -/
def truncateWords : List String → ℚ → List String
  | [], _ => []
  | w :: ws, target =>
    if qDiv (mkRat (w.length : ℤ) 1) 2 < target then
      w :: truncateWords ws (qSub target (mkRat ((w.length : ℤ) + 1) 1))
    else []

/-- Embeds `truncate_title` (tagger.py lines 188-203). -/
def truncate_title (title : String) (targetLength : ℚ) (baseStr : Option String) : String :=
  let bw : List String :=
    match baseStr with
    | some b => (pySplitSpace b).filter (fun w => w ≠ "")
    | none => []
  let t1 : ℚ :=
    match baseStr with
    | some b => qSub targetLength (mkRat (b.length : ℤ) 1)
    | none => targetLength
  let words := bw ++ truncateWords (pySplitSpace title) t1
  String.mk (((String.intercalate (" ") words).toList.reverse.dropWhile
    (fun c => junkChars.contains c)).reverse)

/-- Embeds `get_item_title` (tagger.py lines 177-185); the `item` argument is
passed as its `Quantity` and `Title` fields, so the one function serves Item
and Refund records exactly as the source does. -/
def get_item_title (qty : Nat) (title : String) (targetLength : ℚ) : String :=
  let baseStr : Option String := if qty > 1 then some (natStr qty ++ "x") else none
  truncate_title (String.mk (title.toList.filter (fun c => pyPrintable c)))
    targetLength baseStr

/-- An Amazon items-report row (the fields of `tagger.py` that the core
reads), monetary fields in micro-usd.  `originalQuantityInOrder` models the
`ORIGINAL_QUANTITY_IN_ORDER` tag added to adjusted copies (line 171). -/
structure Item where
  orderId : String
  tracking : String
  title : String
  itemCategory : String
  quantity : Nat
  purchasePricePerUnit : ℚ
  itemSubtotal : ℚ
  itemSubtotalTax : ℚ
  itemTotal : ℚ
  originalQuantityInOrder : Option Nat

deriving DecidableEq

instance : Inhabited Item := ⟨⟨"", "", "", "", 0, 0, 0, 0, 0, none⟩⟩

/-- An Amazon orders-report row (one per shipment); dates are day numbers. -/
structure Order where
  orderId : String
  tracking : String
  orderDate : ℤ
  shipmentDate : ℤ
  subtotal : ℚ
  shippingCharge : ℚ
  taxCharged : ℚ
  taxBeforePromotions : ℚ
  totalPromotions : ℚ
  totalCharged : ℚ

deriving DecidableEq

instance : Inhabited Order := ⟨⟨"", "", 0, 0, 0, 0, 0, 0, 0, 0⟩⟩

/-- An Amazon refunds-report row; `totalRefundAmount` is precomputed as
refund amount plus refund tax (tagger.py lines 999-1001). -/
structure Refund where
  orderId : String
  refundDate : Option ℤ
  reason : String
  title : String
  refundCategory : String
  quantity : Nat
  refundAmount : ℚ
  refundTaxAmount : ℚ
  totalRefundAmount : ℚ
  asin : String

deriving DecidableEq

instance : Inhabited Refund := ⟨⟨"", none, "", "", "", 0, 0, 0, 0, ""⟩⟩

/-- A Mint transaction restricted to the fields the matching core reads and
writes.  `odate` is the posted order date used for all date-window tests;
`amount` is sign-normalized (debit positive).  The `note` text the source
also fills in is presentation-only and not modelled. -/
structure MintTrans where
  odate : ℤ
  amount : ℚ
  merchant : String
  category : String
  isDebit : Bool

deriving DecidableEq

instance : Inhabited MintTrans := ⟨⟨0, 0, "", "", true⟩⟩

/-- The processing counters of the `stats` Counter that the matching core
touches (spelling kept from the source, typo included). -/
structure Stats where
  order_match : Nat
  refund_match : Nat
  quanity_adjust : Nat
  orders_need_combinatoric_adjustment : Nat
  items_tax_adjust : Nat
  misc_charge : Nat

deriving DecidableEq

/-- All-zero counters. -/
def stats0 : Stats := ⟨0, 0, 0, 0, 0, 0⟩

/-- External collaborators of the core, per the configuration surface: the
`category.AMAZON_TO_MINT_CATEGORY` mapping and default categories from the
`category` module (imported by tagger.py but outside the core), the
description-prefix function, and the itemize flag. -/
structure Config where
  amazonToMintCategory : String → Option String
  defaultMintCategory : String
  defaultMintReturnCategory : String
  descPre : Bool → String
  itemize : Bool

/-- Embeds `sum_amounts` (tagger.py lines 222-223). -/
def sum_amounts (trans : List MintTrans) : ℚ := (trans.map (fun t => t.amount)).foldl qAdd 0

/-- Embeds `adjust_amazon_item_quantity` (tagger.py lines 158-171).  The
three `assert` statements become the `none` case (an `AssertionError`); the
tax is rescaled with Python true division, hence `qDiv`. -/
def adjust_amazon_item_quantity (item : Item) (newQuantity : Nat) : Option Item :=
  if 0 < newQuantity ∧ newQuantity ≤ item.quantity ∧
      qMul item.purchasePricePerUnit (mkRat (item.quantity : ℤ) 1) = item.itemSubtotal then
    let sub := qMul item.purchasePricePerUnit (mkRat (newQuantity : ℤ) 1)
    let tax := qMul (qDiv item.itemSubtotalTax (mkRat (item.quantity : ℤ) 1))
      (mkRat (newQuantity : ℤ) 1)
    some { item with
      itemSubtotal := sub
      itemSubtotalTax := tax
      itemTotal := qAdd sub tax
      quantity := newQuantity
      originalQuantityInOrder := some item.quantity }
  else none

/-- Residual absorption of an under-one-cent difference between the order
total and the adjusted item total (tagger.py lines 372-375 and 425-428). -/
def absorbCentDiff (order : Order) (it : Item) : Item :=
  let d := qSub order.totalCharged it.itemTotal
  if d ≠ 0 ∧ qAbs d < 10000 then
    { it with
      itemTotal := qAdd it.itemTotal d
      itemSubtotalTax := qAdd it.itemSubtotalTax d }
  else it

/-- Embeds the single-item quantity fix-up of `tag_as_order` (tagger.py
lines 417-432) together with the `adjust_amazon_item_quantity` call it
makes.  The source tries each `i in range(quantity)`, i.e. the quantities
`0, 1, ..., quantity - 1`, and abandons the match (`ok none`) when none of
them hits the order subtotal. -/
def fixSingleItemQuantity (order : Order) (item : Item) : Except String (Option Item) :=
  match (List.range item.quantity).find?
      (fun i => qMul item.purchasePricePerUnit (mkRat (Int.ofNat i) 1) = order.subtotal) with
  | none => Except.ok none
  | some i =>
    match adjust_amazon_item_quantity item i with
    | none => Except.error ("AssertionError")
    | some it1 => Except.ok (some (absorbCentDiff order it1))

/-- Stated from the claim's words, for comparison with the source: identical
to `fixSingleItemQuantity` except that the attempted quantities are
`1, ..., original_quantity`, as the specification describes the loop. -/
def fixSingleItemQuantityClaim (order : Order) (item : Item) : Except String (Option Item) :=
  match ((List.range item.quantity).map (fun i => i + 1)).find?
      (fun i => qMul item.purchasePricePerUnit (mkRat (Int.ofNat i) 1) = order.subtotal) with
  | none => Except.ok none
  | some i =>
    match adjust_amazon_item_quantity item i with
    | none => Except.error ("AssertionError")
    | some it1 => Except.ok (some (absorbCentDiff order it1))

/-- Keys of a list in first-occurrence order, as a Python 3.7 dict built by
repeated insertion iterates them. -/
def firstOcc (l : List String) : List String :=
  l.foldl (fun acc k => if k ∈ acc then acc else acc ++ [k]) []

/-- Embeds the dict key `'{}-{}-{}-{}-{}-{}'.format(...)` built at tagger.py
lines 619-625. -/
def refundKey (r : Refund) : String :=
  String.intercalate ("-")
    [dateStr r.refundDate, r.reason, r.title, ratStr r.totalRefundAmount,
     r.asin, natStr r.quantity]

/-- One group's contribution to the collapsed result (tagger.py lines
628-638): singleton groups pass through, larger groups become one deep copy
of the first row with quantity `len(group)` and the monetary fields
multiplied by it. -/
def collapseGroup (g : List Refund) : List Refund :=
  if g.length = 1 then g
  else
    match g with
    | [] => []
    | r :: _ =>
      [{ r with
          quantity := g.length
          totalRefundAmount := qMul r.totalRefundAmount (mkRat (g.length : ℤ) 1)
          refundAmount := qMul r.refundAmount (mkRat (g.length : ℤ) 1)
          refundTaxAmount := qMul r.refundTaxAmount (mkRat (g.length : ℤ) 1) }]

/-- Embeds `collapse_items_into_quantity` (tagger.py lines 614-639). -/
def collapse_items_into_quantity (items : List Refund) : List Refund :=
  if items.length ≤ 1 then items
  else ((firstOcc (items.map refundKey)).map
    (fun k => collapseGroup (items.filter (fun i => refundKey i = k)))).flatten

/-- Claim-flag state: maps a record index (into the orders list or the
refunds list) to the index of the transaction recorded in its
`MATCHED_TRANSACTION` entry, if set.  The source stores the flag inside the
shared dict records; the state map is the standard heap reading of that. -/
abbrev ClaimMap := Nat → Option Nat

/-- Sets one claim flag. -/
def claimSet (m : ClaimMap) (i v : Nat) : ClaimMap := fun j => if j = i then some v else m j

/-- Sets the claim flag on every member of a group. -/
def claimSetAll (m : ClaimMap) (g : List Nat) (v : Nat) : ClaimMap :=
  fun j => if j ∈ g then some v else m j

/-- A reference to an item record: `stored i` aliases entry `i` of the items
report (as the Python lists of shared dicts do); `copied it` is a private
`copy.deepcopy` value. -/
inductive ItemRef where
  | stored (idx : Nat)
  | copied (it : Item)

deriving DecidableEq

/-- Reads through an item reference. -/
def readRef (store : List Item) : ItemRef → Item
  | ItemRef.stored i => store.getD i default
  | ItemRef.copied it => it

/-- Writes through an item reference: a stored reference mutates the shared
report entry, a deep copy stays private. -/
def writeRef (store : List Item) : ItemRef → Item → List Item × ItemRef
  | ItemRef.stored i, it => (store.set i it, ItemRef.stored i)
  | ItemRef.copied _, it => (store, ItemRef.copied it)

/-- The charged-amount index (tagger.py lines 700-703): order indices whose
`Total Charged` equals the amount, in input order. -/
def amount_to_orders (ordersAll : List Order) (amount : ℚ) : List Nat :=
  (List.range ordersAll.length).filter
    (fun i => (ordersAll.getD i default).totalCharged = amount)

/-- The tracking-id index (tagger.py lines 708-711) as item indices. -/
def trackingIndexAll (store : List Item) (tr : String) : List Nat :=
  (List.range store.length).filter (fun i => (store.getD i default).tracking = tr)

/-- The order-id index (tagger.py lines 713-717) as item indices. -/
def orderIdIndex (store : List Item) (oid : String) : List Nat :=
  (List.range store.length).filter (fun i => (store.getD i default).orderId = oid)

/-- The closest-match selection loop of `tag_as_order` (tagger.py lines
320-330), carried out over candidate order indices with the running
`(closest_match, closest_match_num_days)` accumulator. -/
def closestOrderAux (t : MintTrans) (ordersAll : List Order) (claims : ClaimMap) :
    List Nat → Option Nat × ℤ → Option Nat × ℤ
  | [], acc => acc
  | c :: cs, acc =>
    let numDays := t.odate - (ordersAll.getD c default).shipmentDate
    closestOrderAux t ordersAll claims cs
      (if |numDays| < 4 ∧ |numDays| < acc.2 ∧ claims c = none then (some c, |numDays|) else acc)

/-- The selected order (index), if any; the accumulator starts at 365 days. -/
def findClosestOrder (t : MintTrans) (ordersAll : List Order) (claims : ClaimMap)
    (cands : List Nat) : Option Nat :=
  (closestOrderAux t ordersAll claims cands (none, 365)).1

/-- Item resolution of `tag_as_order` (tagger.py lines 349-397).  Tracking
path: the (shared) indexed items restricted to the order id.  Order-id path:
the first item whose unit price equals the order subtotal is deep-copied,
adjusted to quantity one and its sub-cent residual absorbed; no such item
counts as a combinatoric-adjustment case.  The `if not items: None` at line
393 has no `return` and so, faithfully, does not end the tracking path. -/
def resolveItems (store : List Item) (order : Order) (stats : Stats) :
    (Except String (Option (List ItemRef))) × Stats :=
  if order.tracking = "" ∨ trackingIndexAll store order.tracking = [] then
    let idxs := orderIdIndex store order.orderId
    if idxs = [] then (Except.ok none, stats)
    else
      match idxs.find?
          (fun i => (store.getD i default).purchasePricePerUnit = order.subtotal) with
      | some i =>
        match adjust_amazon_item_quantity (store.getD i default) 1 with
        | none => (Except.error ("AssertionError"), stats)
        | some it1 =>
          (Except.ok (some [ItemRef.copied (absorbCentDiff order it1)]),
           { stats with quanity_adjust := stats.quanity_adjust + 1 })
      | none =>
        (Except.ok none,
         { stats with
            orders_need_combinatoric_adjustment :=
              stats.orders_need_combinatoric_adjustment + 1 })
  else
    (Except.ok (some (((trackingIndexAll store order.tracking).filter
      (fun i => (store.getD i default).orderId = order.orderId)).map ItemRef.stored)),
     stats)

/-- Stable descending insertion by `Item Total`, equal to the stable
`sorted(items, key=..., reverse=True)` of tagger.py line 400. -/
def insertByTotalDesc (store : List Item) (x : ItemRef) : List ItemRef → List ItemRef
  | [] => [x]
  | y :: ys =>
    if (readRef store y).itemTotal < (readRef store x).itemTotal then x :: y :: ys
    else y :: insertByTotalDesc store x ys

/-- Stable descending sort by `Item Total` (tagger.py line 400). -/
def sortByTotalDesc (store : List Item) (refs : List ItemRef) : List ItemRef :=
  refs.foldl (fun acc x => insertByTotalDesc store x acc) []

/-- Subtotal consistency check and single-item quantity fix-up of
`tag_as_order` (tagger.py lines 404-437). -/
def subtotalFix (store : List Item) (order : Order) (refs : List ItemRef) (stats : Stats) :
    (Except String (Option (List ItemRef))) × Stats :=
  let itemsSum := (refs.map (fun r => (readRef store r).itemSubtotal)).foldl qAdd 0
  if qAbs (qSub itemsSum order.subtotal) > DOLLAR_EPS then
    if refs.length = 1 then
      match fixSingleItemQuantity order (readRef store (refs.getD 0 (ItemRef.copied default))) with
      | Except.error e => (Except.error e, stats)
      | Except.ok none => (Except.ok none, stats)
      | Except.ok (some it2) => (Except.ok (some [ItemRef.copied it2]), stats)
    else
      (Except.ok none,
       { stats with
          orders_need_combinatoric_adjustment :=
            stats.orders_need_combinatoric_adjustment + 1 })
  else (Except.ok (some refs), stats)

/-- One synthesized per-item line (tagger.py lines 440-449). -/
def mkItemLine (cfg : Config) (t : MintTrans) (i : Item) : MintTrans :=
  { t with
    merchant := get_item_title i.quantity i.title 88
    category := (cfg.amazonToMintCategory i.itemCategory).getD cfg.defaultMintCategory
    amount := i.itemTotal
    isDebit := true }

/-- Line synthesis of `tag_as_order` (tagger.py lines 439-496): per-item
lines, a shipping line with derived shipping tax, a promotions credit line,
then the free-shipping recategorization or the tax-before-promotions
adjustment of the promotion line. -/
def synthesizeLines (cfg : Config) (store : List Item) (t : MintTrans) (order : Order)
    (refs : List ItemRef) : List MintTrans :=
  let itemLines := refs.map (fun r => mkItemLine cfg t (readRef store r))
  let itemsTax := (refs.map (fun r => (readRef store r).itemSubtotalTax)).foldl qAdd 0
  let shipLine : Option MintTrans :=
    if order.shippingCharge ≠ 0 then
      some { t with
        merchant := "Shipping"
        category := "Shipping"
        amount := qAdd order.shippingCharge (qSub order.taxCharged itemsTax)
        isDebit := true }
    else none
  let promoLine0 : Option MintTrans :=
    if order.totalPromotions ≠ 0 then
      some { t with
        merchant := "Promotion(s)"
        category := cfg.defaultMintCategory
        amount := qNeg order.totalPromotions
        isDebit := false }
    else none
  let taxDiff0 := qSub order.taxBeforePromotions order.taxCharged
  let promoLine : Option MintTrans :=
    match promoLine0, shipLine with
    | some p, some sh =>
      if qAbs p.amount = sh.amount then some { p with category := "Shipping" }
      else if taxDiff0 ≠ 0 then some { p with amount := qSub p.amount taxDiff0 } else some p
    | some p, none =>
      if taxDiff0 ≠ 0 then some { p with amount := qSub p.amount taxDiff0 } else some p
    | none, _ => none
  itemLines ++ shipLine.toList ++ promoLine.toList

/-- A per-item tax rate `round(tax * 100.0 / subtotal, 1)` (tagger.py line
519); a zero subtotal is the source's `ZeroDivisionError`. -/
def itemTaxRate (it : Item) : Except String ℚ :=
  if it.itemSubtotal = 0 then Except.error ("ZeroDivisionError")
  else Except.ok (pyRound1 (qDiv (qMul it.itemSubtotalTax 100) it.itemSubtotal))

/-- The initial `tax_rate_per_item` list (tagger.py line 519). -/
def initRates (store : List Item) (refs : List ItemRef) : Except String (List ℚ) :=
  refs.mapM (fun r => itemTaxRate (readRef store r))

/-- Python falsiness of the running `min_rate` (`not min_rate`). -/
def pyFalsyRate : Option ℚ → Bool
  | none => true
  | some r => if r = 0 then true else false

/-- The lowest-nonzero-rate scan (tagger.py lines 522-527); `none` means the
source would subscript with `min_idx = None` (a `TypeError`). -/
def minRateIdxAux : List ℚ → Nat → Option Nat × Option ℚ → Option Nat × Option ℚ
  | [], _, acc => acc
  | r :: rs, i, acc =>
    minRateIdxAux rs (i + 1)
      (if r ≠ 0 ∧ (pyFalsyRate acc.2 ∨ r < acc.2.getD 0) then (some i, some r) else acc)

/-- Index of the item receiving one more cent of tax. -/
def minRateIdx (rates : List ℚ) : Option Nat := (minRateIdxAux rates 0 (none, none)).1

/-- The `max(enumerate(...), key=...)` scan (tagger.py line 536); Python's
`max` keeps the first of equal keys and raises `ValueError` on an empty
sequence (`none` here). -/
def maxRateIdxAux : List ℚ → Nat → Option (Nat × ℚ) → Option (Nat × ℚ)
  | [], _, acc => acc
  | r :: rs, i, acc =>
    maxRateIdxAux rs (i + 1)
      (match acc with
       | none => some (i, r)
       | some (j, m) => if m < r then some (i, r) else some (j, m))

/-- Index of the item losing one cent of tax. -/
def maxRateIdx (rates : List ℚ) : Option Nat := (maxRateIdxAux rates 0 none).map (fun p => p.1)

/-- State of the cent-redistribution loop (tagger.py lines 520-542): the
shared item store, the item references, the synthesized lines, the cached
per-item rates and the remaining `tax_diff`. -/
structure TaxLoopSt where
  store : List Item
  refs : List ItemRef
  lines : List MintTrans
  rates : List ℚ
  taxDiff : ℚ

/-- One cent applied to item `i` (sign `c`): updates the item through its
reference (writing the shared store when the reference aliases it), the
matching synthesized line, the cached rate, and the remaining difference.
The recomputed rate divides by the unchanged subtotal, which is nonzero
because the initial rate computation succeeded. -/
def applyCentAt (st : TaxLoopSt) (i : Nat) (c : ℚ) : TaxLoopSt :=
  let r0 := st.refs.getD i (ItemRef.copied default)
  let it := readRef st.store r0
  let it2 := { it with
    itemSubtotalTax := qAdd it.itemSubtotalTax c
    itemTotal := qAdd it.itemTotal c }
  let wr := writeRef st.store r0 it2
  let ln := st.lines.getD i default
  { store := wr.1
    refs := st.refs.set i wr.2
    lines := st.lines.set i { ln with amount := qAdd ln.amount c }
    rates := st.rates.set i (pyRound1 (qDiv (qMul it2.itemSubtotalTax 100) it2.itemSubtotal))
    taxDiff := qSub st.taxDiff c }

/-- The `while abs(tax_diff) > MICRO_USD_EPS` loop (tagger.py lines
520-542), fuel-indexed; the source loops forever when the difference is not
within a cent of a multiple of a cent, which fuel exhaustion represents. -/
def taxLoop : Nat → TaxLoopSt → TaxLoopSt × Option String
  | 0, st => (st, some ("OutOfFuel"))
  | fuel + 1, st =>
    if qAbs st.taxDiff > MICRO_USD_EPS then
      if st.taxDiff > 0 then
        match minRateIdx st.rates with
        | none => (st, some ("TypeError"))
        | some i => taxLoop fuel (applyCentAt st i CENT_MICRO_USD)
      else
        match maxRateIdx st.rates with
        | none => (st, some ("ValueError"))
        | some i => taxLoop fuel (applyCentAt st i (qNeg CENT_MICRO_USD))
    else (st, none)

/-- The residual `Misc Charge` line (tagger.py lines 549-556). -/
def mkMiscLine (cfg : Config) (t : MintTrans) (d : ℚ) : MintTrans :=
  { t with
    merchant := "Misc Charge (Gift wrap, etc)"
    category := cfg.defaultMintCategory
    amount := d
    isDebit := true }

/-- The reconciliation tail of `tag_as_order` (tagger.py lines 498-557):
when the itemized sum misses the transaction amount by more than
`MICRO_USD_EPS`, the source enters the tax-redistribution branch whenever
`itemized_diff - tax_diff < MICRO_USD_EPS` (one-sided, line 506) and
otherwise appends one `Misc Charge` line for the whole difference. -/
def reconcileStep (cfg : Config) (fuel : Nat) (store : List Item) (refs : List ItemRef)
    (lines : List MintTrans) (t : MintTrans) (order : Order) (stats : Stats) :
    List Item × Stats × Except String (List MintTrans) :=
  let itemizedDiff := qSub t.amount (sum_amounts lines)
  if qAbs itemizedDiff > MICRO_USD_EPS then
    let itemizedTax := (refs.map (fun r => (readRef store r).itemSubtotalTax)).foldl qAdd 0
    let taxDiff := qSub order.taxBeforePromotions itemizedTax
    if qSub itemizedDiff taxDiff < MICRO_USD_EPS then
      let stats2 := { stats with items_tax_adjust := stats.items_tax_adjust + 1 }
      match initRates store refs with
      | Except.error e => (store, stats2, Except.error e)
      | Except.ok rates =>
        match taxLoop fuel ⟨store, refs, lines, rates, taxDiff⟩ with
        | (st, some e) => (st.store, stats2, Except.error e)
        | (st, none) => (st.store, stats2, Except.ok st.lines)
    else
      (store,
       { stats with misc_charge := stats.misc_charge + 1 },
       Except.ok (lines ++ [mkMiscLine cfg t itemizedDiff]))
  else (store, stats, Except.ok lines)

/-- Result of one `tag_as_order` call: the returned lines (`ok none` is the
source's `return None`, `error` a raised exception), together with the item
store, the order claim flags and the counters as left behind. -/
structure OrderStepResult where
  res : Except String (Option (List MintTrans))
  store : List Item
  claims : ClaimMap
  stats : Stats

/-- Embeds `tag_as_order` (tagger.py lines 316-558) over the heap model:
order selection, claim-flag set (before item resolution, so a later failure
still leaves the order claimed), item resolution, descending sort, subtotal
fix-up, line synthesis and reconciliation. -/
def tag_as_order (cfg : Config) (fuel : Nat) (ordersAll : List Order) (cands : List Nat)
    (store : List Item) (claims : ClaimMap) (stats : Stats)
    (tIdx : Nat) (t : MintTrans) : OrderStepResult :=
  match findClosestOrder t ordersAll claims cands with
  | none => ⟨Except.ok none, store, claims, stats⟩
  | some oi =>
    let stats1 := { stats with order_match := stats.order_match + 1 }
    let claims1 := claimSet claims oi tIdx
    let order := ordersAll.getD oi default
    match resolveItems store order stats1 with
    | (Except.error e, stats2) => ⟨Except.error e, store, claims1, stats2⟩
    | (Except.ok none, stats2) => ⟨Except.ok none, store, claims1, stats2⟩
    | (Except.ok (some refs0), stats2) =>
      let refs1 := sortByTotalDesc store refs0
      match subtotalFix store order refs1 stats2 with
      | (Except.error e, stats3) => ⟨Except.error e, store, claims1, stats3⟩
      | (Except.ok none, stats3) => ⟨Except.ok none, store, claims1, stats3⟩
      | (Except.ok (some refs2), stats3) =>
        let lines := synthesizeLines cfg store t order refs2
        match reconcileStep cfg fuel store refs2 lines t order stats3 with
        | (store2, stats4, Except.error e) => ⟨Except.error e, store2, claims1, stats4⟩
        | (store2, stats4, Except.ok lines2) => ⟨Except.ok (some lines2), store2, claims1, stats4⟩

/-- A sample configuration (concrete collaborator inputs for the concrete
runs below): no category-table hits, the default prefixes, itemize mode. -/
def cfg0 : Config :=
  { amazonToMintCategory := fun _ => none
    defaultMintCategory := "Shopping"
    defaultMintReturnCategory := "Returned Purchase"
    descPre := fun b => if b then "Amazon.com: " else "Amazon.com refund: "
    itemize := true }

/-- Item fixture for the in-place-mutation run: a one-quantity item resolved
through the tracking index. -/
def itC5 : Item :=
  { orderId := "A1"
    tracking := "TRK1"
    title := "Widget"
    itemCategory := "Toys"
    quantity := 1
    purchasePricePerUnit := 1000000
    itemSubtotal := 1000000
    itemSubtotalTax := 200000
    itemTotal := 1200000
    originalQuantityInOrder := none }

/-- Order fixture: `Tax Before Promotions` one cent under `Tax Charged`, and
`Total Charged` matching it, so reconciliation removes one cent of tax. -/
def oC5 : Order :=
  { orderId := "A1"
    tracking := "TRK1"
    orderDate := 0
    shipmentDate := 0
    subtotal := 1000000
    shippingCharge := 0
    taxCharged := 200000
    taxBeforePromotions := 190000
    totalPromotions := 0
    totalCharged := 1190000 }

/-- Transaction fixture matching `oC5` by amount and date. -/
def tC5 : MintTrans :=
  { odate := 0
    amount := 1190000
    merchant := "Amazon"
    category := "Shopping"
    isDebit := true }

/-- Sum of `Total Refund Amount` over a refund index group. -/
def refundTotalOfIdxs (refundsAll : List Refund) (g : List Nat) : ℚ :=
  (g.map (fun i => (refundsAll.getD i default).totalRefundAmount)).foldl qAdd 0

/-- Order ids in first-occurrence order (dict iteration of lines 729-731). -/
def orderGroupKeys (refundsAll : List Refund) : List String :=
  firstOcc (refundsAll.map (fun r => r.orderId))

/-- All refund indices of one order id, in report order. -/
def orderGroup (refundsAll : List Refund) (oid : String) : List Nat :=
  (List.range refundsAll.length).filter (fun i => (refundsAll.getD i default).orderId = oid)

/-- The `'{}_{}'.format(order_id, refund_date)` key of lines 745-747. -/
def sameDayKey (r : Refund) : String := r.orderId ++ "_" ++ dateStr r.refundDate

/-- Same-day keys in first-occurrence order. -/
def sameDayKeys (refundsAll : List Refund) : List String :=
  firstOcc (refundsAll.map (fun r => sameDayKey r))

/-- All refund indices sharing one same-day key, in report order. -/
def sameDayGroup (refundsAll : List Refund) (k : String) : List Nat :=
  (List.range refundsAll.length).filter (fun i => sameDayKey (refundsAll.getD i default) = k)

/-- Number of distinct refund dates in a group (`len(set(...))`). -/
def distinctDateCount (refundsAll : List Refund) (g : List Nat) : Nat :=
  ((g.map (fun i => (refundsAll.getD i default).refundDate)).dedup).length

/-- The refunded-amount index (tagger.py lines 719-754): the refund groups
(index lists into the refunds report) filed under the given amount, from the
three merged sources in the order the source appends them: (a) every refund
as its own singleton group; (b) all refunds of an order id when they span
more than one distinct refund date; (c) all refunds sharing order id and
refund date, when more than one. -/
def amount_to_refunds (refundsAll : List Refund) (amount : ℚ) : List (List Nat) :=
  (((List.range refundsAll.length).filter
      (fun i => (refundsAll.getD i default).totalRefundAmount = amount)).map (fun i => [i]))
  ++ (((orderGroupKeys refundsAll).map (fun oid => orderGroup refundsAll oid)).filter
      (fun g => ¬g.length = 1 ∧ ¬distinctDateCount refundsAll g ≤ 1 ∧
        refundTotalOfIdxs refundsAll g = amount))
  ++ (((sameDayKeys refundsAll).map (fun k => sameDayGroup refundsAll k)).filter
      (fun g => ¬g.length = 1 ∧ refundTotalOfIdxs refundsAll g = amount))

/-- The closest-match selection loop of `tag_as_refund` (tagger.py lines
564-577): for each candidate group the source takes `next(d for d in r if
d['Refund Date'])`, raising `StopIteration` when no member has a date, and
accepts the group only when inside the window, closer than the running best,
and no member is already claimed. -/
def closestRefundAux (t : MintTrans) (refundsAll : List Refund) (claims : ClaimMap) :
    List (List Nat) → Option (List Nat) × ℤ → Except String (Option (List Nat) × ℤ)
  | [], acc => Except.ok acc
  | g :: gs, acc =>
    match g.find? (fun i => (refundsAll.getD i default).refundDate.isSome) with
    | none => Except.error ("StopIteration")
    | some i0 =>
      let numDays := t.odate - ((refundsAll.getD i0 default).refundDate.getD 0)
      closestRefundAux t refundsAll claims gs
        (if |numDays| < 4 ∧ |numDays| < acc.2 ∧ g.all (fun m => (claims m).isNone)
         then (some g, |numDays|) else acc)

/-- The selected refund group, if any. -/
def findClosestRefundGroup (t : MintTrans) (refundsAll : List Refund) (claims : ClaimMap)
    (groups : List (List Nat)) : Except String (Option (List Nat)) :=
  match closestRefundAux t refundsAll claims groups (none, 365) with
  | Except.error e => Except.error e
  | Except.ok acc => Except.ok acc.1

/-- Result of one `tag_as_refund` call. -/
structure RefundStepResult where
  res : Except String (Option (List MintTrans))
  claims : ClaimMap
  stats : Stats

/-- Embeds `tag_as_refund` (tagger.py lines 561-611): select the closest
fully-unclaimed group in the window, claim every member, collapse duplicate
rows, and emit one credit line per collapsed row (amount the negated total
refund, category via the mapping with the refund default). -/
def tag_as_refund (cfg : Config) (refundsAll : List Refund) (groups : List (List Nat))
    (claims : ClaimMap) (stats : Stats) (tIdx : Nat) (t : MintTrans) : RefundStepResult :=
  match findClosestRefundGroup t refundsAll claims groups with
  | Except.error e => ⟨Except.error e, claims, stats⟩
  | Except.ok none => ⟨Except.ok none, claims, stats⟩
  | Except.ok (some g) =>
    let stats1 := { stats with refund_match := stats.refund_match + 1 }
    let claims1 := claimSetAll claims g tIdx
    let rows := collapse_items_into_quantity (g.map (fun i => refundsAll.getD i default))
    let lines := rows.map (fun r =>
      { t with
        merchant := get_item_title r.quantity r.title 88
        category := (cfg.amazonToMintCategory r.refundCategory).getD
          cfg.defaultMintReturnCategory
        amount := qNeg r.totalRefundAmount
        isDebit := false })
    ⟨Except.ok (some lines), claims1, stats1⟩

/-- Embeds `itemize_new_trans` (tagger.py lines 795-803): prefix every
description, then reverse for the ledger UI. -/
def itemize_new_trans (newTrans : List MintTrans) (pre : String) : List MintTrans :=
  (newTrans.map (fun nt => { nt with merchant := pre ++ nt.merchant })).reverse

/-- Embeds `summarize_new_trans` (tagger.py lines 806-826).  The first
expression of the body, `(100 - len(prefix) - 2 * len(items)) / len(items)`,
reads the name `items`, which is bound nowhere in the function (nor a
module global); CPython raises `NameError` before any other work, so every
call fails.  (The body would go on to read the unbound `order` and to
subscript the list `new_trans` with a string.) -/
def summarize_new_trans (_t : MintTrans) (_newTrans : List MintTrans) (_pre : String) :
    Except String (List MintTrans) :=
  Except.error ("NameError: name items is not defined")

/-- Combined mutable state of one reconciliation run: the shared item
report entries and the two claim-flag maps, plus the counters. -/
structure RunSt where
  store : List Item
  ordClaims : ClaimMap
  refClaims : ClaimMap
  stats : Stats

/-- Output of the matching loop: final state, the collected
`(original, replacements)` pairs, and the exception that ended the run
early, if any. -/
structure RunOut where
  s : RunSt
  result : List (MintTrans × List MintTrans)
  err : Option String

/-- The matching loop of `tag_transactions` (tagger.py lines 756-792),
after the description/pending filters and `unsplit_transactions` (which do
not touch claim state or the reports): a debit whose amount keys the order
index goes to `tag_as_order`, a credit whose negated amount keys the refund
index goes to `tag_as_refund`, anything else is skipped; empty or `None`
results are dropped, and the rest are itemized (or summarized) and
collected in order.  `tIdx` numbers the transactions as their identity for
claim flags. -/
def tag_transactions_loop (cfg : Config) (fuel : Nat) (ordersAll : List Order)
    (refundsAll : List Refund) :
    List MintTrans → Nat → RunSt → List (MintTrans × List MintTrans) → RunOut
  | [], _, s, acc => ⟨s, acc, none⟩
  | t :: ts, tIdx, s, acc =>
    if t.isDebit = true ∧ amount_to_orders ordersAll t.amount ≠ [] then
      let out := tag_as_order cfg fuel ordersAll (amount_to_orders ordersAll t.amount)
        s.store s.ordClaims s.stats tIdx t
      let s2 : RunSt := ⟨out.store, out.claims, s.refClaims, out.stats⟩
      match out.res with
      | Except.error e => ⟨s2, acc, some e⟩
      | Except.ok none => tag_transactions_loop cfg fuel ordersAll refundsAll ts (tIdx + 1) s2 acc
      | Except.ok (some lines) =>
        if lines = [] then
          tag_transactions_loop cfg fuel ordersAll refundsAll ts (tIdx + 1) s2 acc
        else if cfg.itemize then
          tag_transactions_loop cfg fuel ordersAll refundsAll ts (tIdx + 1) s2
            (acc ++ [(t, itemize_new_trans lines (cfg.descPre t.isDebit))])
        else
          match summarize_new_trans t lines (cfg.descPre t.isDebit) with
          | Except.error e => ⟨s2, acc, some e⟩
          | Except.ok ls =>
            tag_transactions_loop cfg fuel ordersAll refundsAll ts (tIdx + 1) s2
              (acc ++ [(t, ls)])
    else if t.isDebit = false ∧ amount_to_refunds refundsAll (qNeg t.amount) ≠ [] then
      let out := tag_as_refund cfg refundsAll (amount_to_refunds refundsAll (qNeg t.amount))
        s.refClaims s.stats tIdx t
      let s2 : RunSt := ⟨s.store, s.ordClaims, out.claims, out.stats⟩
      match out.res with
      | Except.error e => ⟨s2, acc, some e⟩
      | Except.ok none => tag_transactions_loop cfg fuel ordersAll refundsAll ts (tIdx + 1) s2 acc
      | Except.ok (some lines) =>
        if lines = [] then
          tag_transactions_loop cfg fuel ordersAll refundsAll ts (tIdx + 1) s2 acc
        else if cfg.itemize then
          tag_transactions_loop cfg fuel ordersAll refundsAll ts (tIdx + 1) s2
            (acc ++ [(t, itemize_new_trans lines (cfg.descPre t.isDebit))])
        else
          match summarize_new_trans t lines (cfg.descPre t.isDebit) with
          | Except.error e => ⟨s2, acc, some e⟩
          | Except.ok ls =>
            tag_transactions_loop cfg fuel ordersAll refundsAll ts (tIdx + 1) s2
              (acc ++ [(t, ls)])
    else tag_transactions_loop cfg fuel ordersAll refundsAll ts (tIdx + 1) s acc

/-- The amount-conservation assertion stage of `sanity_check_and_filter_tags`
(tagger.py lines 1054-1066): each pair must satisfy
`abs(sum([orig]) - sum(new)) < MICRO_USD_EPS` or the run dies with
`AssertionError`. -/
def sanity_check_amounts : List (MintTrans × List MintTrans) → Except String Unit
  | [] => Except.ok ()
  | p :: rest =>
    if qAbs (qSub (sum_amounts [p.1]) (sum_amounts p.2)) < MICRO_USD_EPS then
      sanity_check_amounts rest
    else Except.error ("AssertionError")

/-- First refund fixture: order `R1`, day 0, total 1,000,000 micro-usd. -/
def rC9a : Refund :=
  { orderId := "R1"
    refundDate := some 0
    reason := "defect"
    title := "Gadget"
    refundCategory := "Electronics"
    quantity := 1
    refundAmount := 900000
    refundTaxAmount := 100000
    totalRefundAmount := 1000000
    asin := "B01" }

/-- Second refund fixture: same order, day 20, total 2,000,000 micro-usd. -/
def rC9b : Refund :=
  { orderId := "R1"
    refundDate := some 20
    reason := "defect"
    title := "Gizmo"
    refundCategory := "Electronics"
    quantity := 1
    refundAmount := 1800000
    refundTaxAmount := 200000
    totalRefundAmount := 2000000
    asin := "B02" }

/-- Credit transaction matching the first refund fixture. -/
def tC9a : MintTrans :=
  { odate := 0
    amount := -1000000
    merchant := "Amazon"
    category := "x"
    isDebit := false }

/-- Credit transaction matching the second refund fixture. -/
def tC9b : MintTrans :=
  { odate := 20
    amount := -2000000
    merchant := "Amazon"
    category := "x"
    isDebit := false }

/-- Empty initial run state over given reports. -/
def runSt0 : RunSt := ⟨[], fun _ => none, fun _ => none, stats0⟩

/-- Item fixture for the reconciliation-branch run. -/
def itC4 : Item :=
  { orderId := "A2"
    tracking := "TRK2"
    title := "Thing"
    itemCategory := "Toys"
    quantity := 1
    purchasePricePerUnit := 1000000
    itemSubtotal := 1000000
    itemSubtotalTax := 100000
    itemTotal := 1100000
    originalQuantityInOrder := none }

/-- Order fixture whose per-item tax matches `Tax Before Promotions`
exactly (`tax_diff = 0`) while the itemized sum overshoots the charge by
ten cents. -/
def oC4 : Order :=
  { orderId := "A2"
    tracking := "TRK2"
    orderDate := 0
    shipmentDate := 0
    subtotal := 1000000
    shippingCharge := 0
    taxCharged := 100000
    taxBeforePromotions := 100000
    totalPromotions := 0
    totalCharged := 1000000 }

/-- Transaction fixture for the reconciliation-branch run. -/
def tC4 : MintTrans :=
  { odate := 0
    amount := 1000000
    merchant := "Amazon"
    category := "Shopping"
    isDebit := true }

/-- Order fixture for the quantity-slice example of the specification. -/
def oC3 : Order :=
  { orderId := "A3"
    tracking := ""
    orderDate := 0
    shipmentDate := 0
    subtotal := 2000000
    shippingCharge := 0
    taxCharged := 0
    taxBeforePromotions := 0
    totalPromotions := 0
    totalCharged := 2000000 }

/-- Item fixture: quantity 3 at 1,000,000 micro-usd per unit. -/
def itC3 : Item :=
  { orderId := "A3"
    tracking := ""
    title := "w"
    itemCategory := "c"
    quantity := 3
    purchasePricePerUnit := 1000000
    itemSubtotal := 3000000
    itemSubtotalTax := 0
    itemTotal := 3000000
    originalQuantityInOrder := none }

/-- Order fixture with a zero subtotal (the boundary the quantity loop's
`range(quantity)` reaches at `i = 0`). -/
def oC3x : Order :=
  { orderId := "A4"
    tracking := ""
    orderDate := 0
    shipmentDate := 0
    subtotal := 0
    shippingCharge := 0
    taxCharged := 0
    taxBeforePromotions := 0
    totalPromotions := 0
    totalCharged := 0 }

/-- Item fixture with a nonzero subtotal against the zero-subtotal order. -/
def itC3x : Item :=
  { orderId := "A4"
    tracking := ""
    title := "w"
    itemCategory := "c"
    quantity := 2
    purchasePricePerUnit := 500000
    itemSubtotal := 1000000
    itemSubtotalTax := 0
    itemTotal := 1000000
    originalQuantityInOrder := none }

/-- Order fixture for the no-quantity-found witness. -/
def oC3w : Order :=
  { orderId := "A5"
    tracking := ""
    orderDate := 0
    shipmentDate := 0
    subtotal := 5
    shippingCharge := 0
    taxCharged := 0
    taxBeforePromotions := 0
    totalPromotions := 0
    totalCharged := 5 }

/-- Item fixture for the no-quantity-found witness. -/
def itC3w : Item :=
  { orderId := "A5"
    tracking := ""
    title := "w"
    itemCategory := "c"
    quantity := 1
    purchasePricePerUnit := 7
    itemSubtotal := 7
    itemSubtotalTax := 0
    itemTotal := 7
    originalQuantityInOrder := none }

/-- Order fixture identical to `oC5` but arithmetically consistent, so the
reconciler leaves everything untouched. -/
def oC5b : Order :=
  { oC5 with taxBeforePromotions := 200000, totalCharged := 1200000 }

/-- Transaction fixture matching `oC5b`. -/
def tC5b : MintTrans := { tC5 with amount := 1200000 }

/-- Transaction fixture three days after the shipment date of `oC5`. -/
def tC2 : MintTrans := { tC5 with odate := 3 }

theorem qAdd_eq (a b : ℚ) : qAdd a b = a + b := by
  have ha : ((a.den : ℚ)) ≠ 0 := by exact_mod_cast a.den_nz
  have hb : ((b.den : ℚ)) ≠ 0 := by exact_mod_cast b.den_nz
  have hA : ((a.num : ℚ)) = a * a.den := (div_eq_iff ha).mp (Rat.num_div_den a)
  have hB : ((b.num : ℚ)) = b * b.den := (div_eq_iff hb).mp (Rat.num_div_den b)
  rw [qAdd, Rat.mkRat_eq_div]
  push_cast
  rw [div_eq_iff (by positivity), hA, hB]
  ring

theorem qNeg_eq (a : ℚ) : qNeg a = -a := by
  rw [qNeg, Rat.mkRat_eq_div]
  push_cast
  rw [neg_div, Rat.num_div_den]

theorem qSub_eq (a b : ℚ) : qSub a b = a - b := by
  rw [qSub, qAdd_eq, qNeg_eq, sub_eq_add_neg]

theorem qMul_eq (a b : ℚ) : qMul a b = a * b := by
  have ha : ((a.den : ℚ)) ≠ 0 := by exact_mod_cast a.den_nz
  have hb : ((b.den : ℚ)) ≠ 0 := by exact_mod_cast b.den_nz
  have hA : ((a.num : ℚ)) = a * a.den := (div_eq_iff ha).mp (Rat.num_div_den a)
  have hB : ((b.num : ℚ)) = b * b.den := (div_eq_iff hb).mp (Rat.num_div_den b)
  rw [qMul, Rat.mkRat_eq_div]
  push_cast
  rw [div_eq_iff (by positivity), hA, hB]
  ring

theorem qInv_eq (b : ℚ) : qInv b = b⁻¹ := by
  rw [qInv, Rat.mkRat_eq_divInt, Rat.inv_def']
  rcases lt_trichotomy b.num 0 with hneg | hzero | hpos
  · have h1 : ((b.num.natAbs : ℤ)) = -b.num := by omega
    rw [if_pos hneg, h1, show ((b.den : ℤ)) * -1 = -(b.den : ℤ) by ring,
      Rat.neg_divInt_neg]
  · have h1 : ((b.num.natAbs : ℤ)) = b.num := by omega
    rw [if_neg (by omega), h1, mul_one]
  · have h1 : ((b.num.natAbs : ℤ)) = b.num := by omega
    rw [if_neg (by omega), h1, mul_one]

theorem qDiv_eq (a b : ℚ) : qDiv a b = a / b := by
  rw [qDiv, qMul_eq, qInv_eq, div_eq_mul_inv]

theorem qAbs_eq (a : ℚ) : qAbs a = |a| := by
  rcases le_or_lt 0 a.num with hpos | hneg
  · have h1 : ((a.num.natAbs : ℤ)) = a.num := by omega
    have h2 : 0 ≤ a := Rat.num_nonneg.mp hpos
    rw [qAbs, h1, Rat.mkRat_self, abs_of_nonneg h2]
  · have h1 : ((a.num.natAbs : ℤ)) = -a.num := by omega
    have h2 : a < 0 := by
      by_contra h
      push_neg at h
      exact absurd (Rat.num_nonneg.mpr h) (by omega)
    rw [qAbs, h1, show mkRat (-a.num) a.den = qNeg a from rfl, qNeg_eq,
      abs_of_neg h2]

theorem sum_amounts_eq (trans : List MintTrans) :
    sum_amounts trans = ((trans.map (fun t => t.amount)).sum) := by
  rw [sum_amounts]
  generalize trans.map (fun t => t.amount) = l
  have main : ∀ (l : List ℚ) (z : ℚ), l.foldl qAdd z = z + l.sum := by
    intro l
    induction l with
    | nil => intro z; simp
    | cons x xs ih =>
      intro z
      rw [List.foldl_cons, ih, qAdd_eq, List.sum_cons]
      ring
  rw [main l 0, zero_add]

theorem sum_amounts_singleton (t : MintTrans) : sum_amounts [t] = t.amount := by
  rw [sum_amounts_eq]
  simp

theorem sanityCond_iff (p : MintTrans × List MintTrans) :
    (qAbs (qSub (sum_amounts [p.1]) (sum_amounts p.2)) < MICRO_USD_EPS)
    ↔ |p.1.amount - sum_amounts p.2| < 50 := by
  rw [qAbs_eq, qSub_eq, sum_amounts_singleton]
  simp [MICRO_USD_EPS]

/-- C1: for every (original, replacements) pair accepted by the validator's
amount-conservation gate, the replacements sum to the original amount to
within 50 micro-usd; and any pair whose absolute difference is 50 micro-usd
or more makes the run fail fatally with `AssertionError` rather than being
accepted. -/
theorem C1_conservation_gate :
    (∀ ps : List (MintTrans × List MintTrans), sanity_check_amounts ps = Except.ok () →
      ∀ p ∈ ps, |p.1.amount - sum_amounts p.2| < 50)
    ∧ (∀ (ps : List (MintTrans × List MintTrans)) (p : MintTrans × List MintTrans),
        p ∈ ps → 50 ≤ |p.1.amount - sum_amounts p.2| →
        sanity_check_amounts ps = Except.error ("AssertionError")) := by
  constructor
  · intro ps
    induction ps with
    | nil =>
      intro _ p hp
      cases hp
    | cons q rest ih =>
      intro hok p hp
      rw [sanity_check_amounts] at hok
      by_cases hc : qAbs (qSub (sum_amounts [q.1]) (sum_amounts q.2)) < MICRO_USD_EPS
      · rw [if_pos hc] at hok
        rcases List.mem_cons.mp hp with rfl | hp2
        · exact (sanityCond_iff p).mp hc
        · exact ih hok p hp2
      · rw [if_neg hc] at hok
        cases hok
  · intro ps p
    induction ps with
    | nil =>
      intro hp
      cases hp
    | cons q rest ih =>
      intro hp hbad
      rw [sanity_check_amounts]
      by_cases hc : qAbs (qSub (sum_amounts [q.1]) (sum_amounts q.2)) < MICRO_USD_EPS
      · rw [if_pos hc]
        rcases List.mem_cons.mp hp with rfl | hp2
        · exact absurd ((sanityCond_iff p).mp hc) (not_lt.mpr hbad)
        · exact ih hp2 hbad
      · rw [if_neg hc]

/-- Closed witness for `C1_conservation_gate`: a concretely accepted pair
whose difference is zero. -/
theorem C1_conservation_gate_witness :
    ∀ p ∈ [(tC9a, [tC9a])], |p.1.amount - sum_amounts p.2| < 50 :=
  C1_conservation_gate.1 [(tC9a, [tC9a])] (by decide)

/-- C4: at a concrete input whose itemized difference (-100,000 micro-usd)
does not equal `tax_before_promotions - Σ item subtotal tax` (which is 0),
the reconciler still takes the tax-redistribution branch — the one-sided
`itemized_diff - tax_diff < MICRO_USD_EPS` test of line 506 accepts any
large negative difference — so no `Misc Charge` line is appended, the
counter `items_tax_adjust` is bumped, the lines are returned unchanged, and
the pair then fails the program's own conservation assertion. -/
theorem C4_tax_branch_one_sided :
    qSub tC4.amount (sum_amounts [mkItemLine cfg0 tC4 itC4]) = -100000
    ∧ qSub oC4.taxBeforePromotions itC4.itemSubtotalTax = 0
    ∧ reconcileStep cfg0 10 [itC4] [ItemRef.stored 0] [mkItemLine cfg0 tC4 itC4] tC4 oC4 stats0
      = ([itC4], { stats0 with items_tax_adjust := 1 },
         Except.ok [mkItemLine cfg0 tC4 itC4])
    ∧ sanity_check_amounts [(tC4, [mkItemLine cfg0 tC4 itC4])]
      = Except.error ("AssertionError") := by
  refine ⟨by decide, by decide, by decide, by decide⟩

/-- C6: `summarize_new_trans` reads names (`items`, `order`) that are bound
nowhere in the function, so every call in summarize mode raises `NameError`
instead of building the described summary record; a matched transaction in
summarize mode therefore aborts the whole matching loop. -/
theorem C6_summarize_name_error :
    summarize_new_trans tC9a [tC9a] ("Amazon.com refund: ")
      = Except.error ("NameError: name items is not defined")
    ∧ (tag_transactions_loop { cfg0 with itemize := false } 10 [] [rC9a, rC9b]
        [tC9a] 0 runSt0 []).err
      = some ("NameError: name items is not defined") := by
  refine ⟨rfl, by decide⟩

/-- C10 (counterexample): currency parsing is not total — on the nonempty
string consisting of one comma, removing commas leaves the empty string and
the `amount[0]` test of line 150, which sits outside the `try`, raises an
uncaught `IndexError` instead of yielding 0. -/
theorem C10_counterexample :
    parse_usd_as_float (",") = Except.error ("IndexError")
    ∧ parse_usd_as_micro_usd (",") = Except.error ("IndexError") := by
  refine ⟨by decide, by decide⟩

set_option maxRecDepth 8000 in
/-- C10 (amended): currency parsing yields exactly 0 micro-usd for an empty
amount or for an (ASCII) string that does not parse as a float after
removing grouping commas and one leading dollar sign; it is, however, not
total: a nonempty all-comma amount raises `IndexError` (line 150, outside
the `try`), and an amount parsing to an infinite or NaN float — `1e400`,
`inf`, `nan` — raises `OverflowError`/`ValueError` at the unguarded `int()`
conversion (underscored numbers such as `1_0` do parse); those three are
the only exceptions the parser can raise. -/
theorem C10_parse_total_amended :
    parse_usd_as_micro_usd ("") = Except.ok 0
    ∧ (∀ (s : String) (c : Char) (rest : List Char),
        s ≠ "" →
        (∀ ch ∈ s.toList, ch.toNat < 128) →
        s.toList.filter (fun ch => ch ≠ ',') = c :: rest →
        pyFloatOfString (String.mk (if c = '$' then rest else c :: rest)) = none →
        parse_usd_as_micro_usd s = Except.ok 0)
    ∧ (∀ (s e : String), parse_usd_as_micro_usd s = Except.error e →
        (e = "IndexError" ∧ s ≠ "" ∧ s.toList.filter (fun ch => ch ≠ ',') = [])
        ∨ e = "OverflowError" ∨ e = "ValueError")
    ∧ (parse_usd_as_micro_usd ("1e400") = Except.error ("OverflowError")
      ∧ parse_usd_as_micro_usd ("inf") = Except.error ("OverflowError")
      ∧ parse_usd_as_micro_usd ("nan") = Except.error ("ValueError")
      ∧ parse_usd_as_micro_usd ("1_0") = Except.ok 10000000) := by
  refine ⟨by decide, ?_, ?_, by decide, by decide, by decide, by decide⟩
  · intro s c rest hne _hascii hfil hparse
    have h1 : parse_usd_as_float s = Except.ok (PyFloat.finite 0) := by
      simp only [parse_usd_as_float, if_neg hne, hfil, hparse]
    simp only [parse_usd_as_micro_usd, h1]
    decide
  · intro s e h
    by_cases hne : s = ""
    · subst hne
      rw [show parse_usd_as_micro_usd ("") = Except.ok 0 from by decide] at h
      cases h
    · cases hfil : s.toList.filter (fun ch => ch ≠ ',') with
      | nil =>
        have h2 : parse_usd_as_micro_usd s = Except.error ("IndexError") := by
          simp only [parse_usd_as_micro_usd, parse_usd_as_float, if_neg hne, hfil]
        rw [h2] at h
        injection h with h3
        exact Or.inl ⟨h3.symm, hne, rfl⟩
      | cons c rest =>
        cases hp : pyFloatOfString (String.mk (if c = '$' then rest else c :: rest)) with
        | none =>
          have h1 : parse_usd_as_float s = Except.ok (PyFloat.finite 0) := by
            simp only [parse_usd_as_float, if_neg hne, hfil, hp]
          rw [show parse_usd_as_micro_usd s = Except.ok 0 from by
            simp only [parse_usd_as_micro_usd, h1]
            decide] at h
          cases h
        | some f =>
          have h1 : parse_usd_as_float s = Except.ok f := by
            simp only [parse_usd_as_float, if_neg hne, hfil, hp]
          cases f with
          | finite v =>
            simp only [parse_usd_as_micro_usd, h1] at h
            by_cases hov : DBL_OVERFLOW ≤ qAbs (qMul (round_usd v) 1000000)
            · rw [if_pos hov] at h
              injection h with h3
              exact Or.inr (Or.inl h3.symm)
            · rw [if_neg hov] at h
              cases h
          | inf =>
            simp only [parse_usd_as_micro_usd, h1] at h
            injection h with h3
            exact Or.inr (Or.inl h3.symm)
          | negInf =>
            simp only [parse_usd_as_micro_usd, h1] at h
            injection h with h3
            exact Or.inr (Or.inl h3.symm)
          | nan =>
            simp only [parse_usd_as_micro_usd, h1] at h
            injection h with h3
            exact Or.inr (Or.inr h3.symm)

/-- Closed witness for `C10_parse_total_amended`: the unparseable string
`abc` yields exactly 0 micro-usd. -/
theorem C10_parse_total_amended_witness :
    parse_usd_as_micro_usd ("abc") = Except.ok 0 :=
  C10_parse_total_amended.2.1 ("abc") 'a' ['b', 'c'] (by decide) (by decide) (by decide)
    (by decide)

theorem absorbCentDiff_quantity (o : Order) (x : Item) :
    (absorbCentDiff o x).quantity = x.quantity := by
  rw [absorbCentDiff]
  split
  · rfl
  · rfl

theorem absorbCentDiff_subtotal (o : Order) (x : Item) :
    (absorbCentDiff o x).itemSubtotal = x.itemSubtotal := by
  rw [absorbCentDiff]
  split
  · rfl
  · rfl

/-- C3 (counterexample): the claim says the quantities `1 .. original_quantity`
are attempted and that with no hit the match is abandoned with `None`; the
source instead iterates `range(quantity)`, i.e. `0 .. quantity - 1`.  At an
order subtotal of 0 with a two-unit item, the claim's loop finds no quantity
and abandons the match, while the source finds `i = 0` and dies in
`adjust_amazon_item_quantity`'s `new_quantity > 0` assertion. -/
theorem C3_counterexample :
    fixSingleItemQuantity oC3x itC3x = Except.error ("AssertionError")
    ∧ fixSingleItemQuantityClaim oC3x itC3x = Except.ok none := by
  refine ⟨by decide, by decide⟩

theorem C3_quantity_fix_amended :
    (fixSingleItemQuantity oC3 itC3
      = Except.ok (some { itC3 with
          quantity := 2
          itemSubtotal := 2000000
          itemSubtotalTax := 0
          itemTotal := 2000000
          originalQuantityInOrder := some 3 }))
    ∧ (∀ (o : Order) (it : Item),
        (∀ i : ℕ, i < it.quantity → it.purchasePricePerUnit * (i : ℚ) ≠ o.subtotal) →
        fixSingleItemQuantity o it = Except.ok none)
    ∧ (∀ (o : Order) (it it' : Item),
        fixSingleItemQuantity o it = Except.ok (some it') →
        it'.itemSubtotal = o.subtotal ∧ 0 < it'.quantity ∧ it'.quantity < it.quantity ∧
        it.purchasePricePerUnit * (it'.quantity : ℚ) = o.subtotal) := by
  refine ⟨by decide, ?_, ?_⟩
  · intro o it h
    have hf : (List.range it.quantity).find?
        (fun i => qMul it.purchasePricePerUnit (mkRat (Int.ofNat i) 1) = o.subtotal) = none := by
      rw [List.find?_eq_none]
      intro x hx
      rw [List.mem_range] at hx
      simp only [decide_eq_true_eq]
      intro hc
      rw [qMul_eq, Rat.mkRat_one] at hc
      exact h x hx (by exact_mod_cast hc)
    simp only [fixSingleItemQuantity, hf]
  · intro o it it' h
    cases hf : (List.range it.quantity).find?
        (fun i => qMul it.purchasePricePerUnit (mkRat (Int.ofNat i) 1) = o.subtotal) with
    | none =>
      simp only [fixSingleItemQuantity, hf] at h
      injection h with h2
      cases h2
    | some i =>
      have hp := List.find?_some hf
      have hmem := List.mem_of_find?_eq_some hf
      rw [List.mem_range] at hmem
      rw [decide_eq_true_eq, qMul_eq, Rat.mkRat_one] at hp
      simp only [fixSingleItemQuantity, hf] at h
      cases ha : adjust_amazon_item_quantity it i with
      | none =>
        rw [ha] at h
        cases h
      | some it1 =>
        rw [ha] at h
        have hit' : it' = absorbCentDiff o it1 := by
          injection h with h2
          injection h2 with h3
          exact h3.symm
        rw [adjust_amazon_item_quantity] at ha
        by_cases hcond : 0 < i ∧ i ≤ it.quantity ∧
            qMul it.purchasePricePerUnit (mkRat (it.quantity : ℤ) 1) = it.itemSubtotal
        · rw [if_pos hcond] at ha
          have hit1 : it1 = { it with
              itemSubtotal := qMul it.purchasePricePerUnit (mkRat (i : ℤ) 1)
              itemSubtotalTax := qMul (qDiv it.itemSubtotalTax (mkRat (it.quantity : ℤ) 1))
                (mkRat (i : ℤ) 1)
              itemTotal := qAdd (qMul it.purchasePricePerUnit (mkRat (i : ℤ) 1))
                (qMul (qDiv it.itemSubtotalTax (mkRat (it.quantity : ℤ) 1)) (mkRat (i : ℤ) 1))
              quantity := i
              originalQuantityInOrder := some it.quantity } := by
            injection ha with ha1
            exact ha1.symm
          have hq : it'.quantity = i := by
            rw [hit', absorbCentDiff_quantity, hit1]
          have hs : it'.itemSubtotal = qMul it.purchasePricePerUnit (mkRat (i : ℤ) 1) := by
            rw [hit', absorbCentDiff_subtotal, hit1]
          have hps : qMul it.purchasePricePerUnit (mkRat (i : ℤ) 1) = o.subtotal := by
            rw [qMul_eq, Rat.mkRat_one]
            exact_mod_cast hp
          refine ⟨by rw [hs, hps], by rw [hq]; exact hcond.1, by rw [hq]; exact hmem, ?_⟩
          rw [hq]
          exact_mod_cast hp
        · rw [if_neg hcond] at ha
          cases ha

/-- Closed witness for `C3_quantity_fix_amended`: no attempted quantity hits
the subtotal, so the match is abandoned. -/
theorem C3_quantity_fix_amended_witness :
    fixSingleItemQuantity oC3w itC3w = Except.ok none :=
  C3_quantity_fix_amended.2.1 oC3w itC3w (by
    intro i hi
    have h0 : i = 0 := by
      have : itC3w.quantity = 1 := rfl
      omega
    subst h0
    norm_num [itC3w, oC3w])

theorem resolveItems_tax_count (store : List Item) (order : Order) (stats : Stats) :
    (resolveItems store order stats).2.items_tax_adjust = stats.items_tax_adjust := by
  rw [resolveItems]
  repeat' first
    | split
    | dsimp only

theorem subtotalFix_tax_count (store : List Item) (order : Order) (refs : List ItemRef)
    (stats : Stats) :
    (subtotalFix store order refs stats).2.items_tax_adjust = stats.items_tax_adjust := by
  rw [subtotalFix]
  repeat' first
    | split
    | dsimp only

theorem reconcileStep_store_of_tax_count (cfg : Config) (fuel : Nat) (store : List Item)
    (refs : List ItemRef) (lines : List MintTrans) (t : MintTrans) (order : Order)
    (stats : Stats) :
    (reconcileStep cfg fuel store refs lines t order stats).2.1.items_tax_adjust
      = stats.items_tax_adjust →
    (reconcileStep cfg fuel store refs lines t order stats).1 = store := by
  rw [reconcileStep]
  repeat' first
    | split
    | dsimp only
  all_goals intro h
  all_goals first
    | rfl
    | (exact absurd h (Nat.succ_ne_self _))

/-- C5 (amended): unless the cent-by-cent tax-redistribution branch runs
(observable as the `items_tax_adjust` counter increasing), `tag_as_order`
leaves the item report entirely unchanged — in particular the deep-copy
quantity adjustments never write back to the original records. -/
theorem C5_store_preserved_amended :
    ∀ (cfg : Config) (fuel : Nat) (ordersAll : List Order) (cands : List Nat)
      (store : List Item) (claims : ClaimMap) (stats : Stats) (tIdx : Nat) (t : MintTrans),
      (tag_as_order cfg fuel ordersAll cands store claims stats tIdx t).stats.items_tax_adjust
        = stats.items_tax_adjust →
      (tag_as_order cfg fuel ordersAll cands store claims stats tIdx t).store = store := by
  intro cfg fuel ordersAll cands store claims stats tIdx t
  simp only [tag_as_order]
  cases hfc : findClosestOrder t ordersAll claims cands with
  | none =>
    intro _
    rfl
  | some oi =>
    dsimp only
    rcases h1 : resolveItems store (ordersAll.getD oi default)
        { stats with order_match := stats.order_match + 1 } with ⟨r1, stats2⟩
    cases r1 with
    | error e =>
      intro _
      rfl
    | ok o1 =>
      cases o1 with
      | none =>
        intro _
        rfl
      | some refs0 =>
        dsimp only
        rcases h2 : subtotalFix store (ordersAll.getD oi default)
            (sortByTotalDesc store refs0) stats2 with ⟨r2, stats3⟩
        cases r2 with
        | error e =>
          intro _
          rfl
        | ok o2 =>
          cases o2 with
          | none =>
            intro _
            rfl
          | some refs2 =>
            dsimp only
            rcases h3 : reconcileStep cfg fuel store refs2
                (synthesizeLines cfg store t (ordersAll.getD oi default) refs2) t
                (ordersAll.getD oi default) stats3 with ⟨store2, stats4, r3⟩
            have e1 : stats2.items_tax_adjust = stats.items_tax_adjust := by
              have hh := resolveItems_tax_count store (ordersAll.getD oi default)
                { stats with order_match := stats.order_match + 1 }
              rw [h1] at hh
              exact hh
            have e2 : stats3.items_tax_adjust = stats2.items_tax_adjust := by
              have hh := subtotalFix_tax_count store (ordersAll.getD oi default)
                (sortByTotalDesc store refs0) stats2
              rw [h2] at hh
              exact hh
            cases r3 with
            | error e =>
              intro h
              have e4 : stats4.items_tax_adjust = stats3.items_tax_adjust :=
                h.trans (e2.trans e1).symm
              have hst := reconcileStep_store_of_tax_count cfg fuel store refs2
                (synthesizeLines cfg store t (ordersAll.getD oi default) refs2) t
                (ordersAll.getD oi default) stats3 (by rw [h3]; exact e4)
              rw [h3] at hst
              exact hst
            | ok lines2 =>
              intro h
              have e4 : stats4.items_tax_adjust = stats3.items_tax_adjust :=
                h.trans (e2.trans e1).symm
              have hst := reconcileStep_store_of_tax_count cfg fuel store refs2
                (synthesizeLines cfg store t (ordersAll.getD oi default) refs2) t
                (ordersAll.getD oi default) stats3 (by rw [h3]; exact e4)
              rw [h3] at hst
              exact hst

/-- C5 (counterexample): after this `tag_as_order` run — the item resolved
through the shared tracking index, reconciliation entering the cent-by-cent
tax-redistribution loop — the original Item record of the report has been
mutated in place: its `Item Subtotal Tax` dropped from 200,000 to 190,000
micro-usd (and `Item Total` in lockstep), contradicting the claim that the
fields of the original records are unchanged after `tag_as_order` returns. -/
theorem C5_counterexample :
    (tag_as_order cfg0 10 [oC5] [0] [itC5] (fun _ => none) stats0 0 tC5).store
      = [{ itC5 with itemSubtotalTax := 190000, itemTotal := 1190000 }]
    ∧ (tag_as_order cfg0 10 [oC5] [0] [itC5] (fun _ => none) stats0 0 tC5).store ≠ [itC5] := by
  refine ⟨by decide, by decide⟩

/-- Closed witness for `C5_store_preserved_amended`: a fully matched and
itemized run that never enters the tax loop leaves the store unchanged. -/
theorem C5_store_preserved_amended_witness :
    (tag_as_order cfg0 10 [oC5b] [0] [itC5] (fun _ => none) stats0 0 tC5b).store = [itC5] :=
  C5_store_preserved_amended cfg0 10 [oC5b] [0] [itC5] (fun _ => none) stats0 0 tC5b (by decide)

theorem closestOrderAux_isSome (t : MintTrans) (oA : List Order) (claims : ClaimMap) :
    ∀ (cs : List Nat) (acc : Option Nat × ℤ), acc.1.isSome →
      (closestOrderAux t oA claims cs acc).1.isSome := by
  intro cs
  induction cs with
  | nil =>
    intro acc h
    exact h
  | cons c cs ih =>
    intro acc h
    rw [closestOrderAux]
    split
    · exact ih _ rfl
    · exact ih _ h

theorem closestOrderAux_finds (t : MintTrans) (oA : List Order) (claims : ClaimMap) :
    ∀ (cs : List Nat) (acc : Option Nat × ℤ),
      (∃ c ∈ cs, (|t.odate - (oA.getD c default).shipmentDate| < 4 ∧ claims c = none)
        ∧ |t.odate - (oA.getD c default).shipmentDate| < acc.2) →
      (closestOrderAux t oA claims cs acc).1.isSome := by
  intro cs
  induction cs with
  | nil =>
    intro acc h
    rcases h with ⟨c, hc, _⟩
    cases hc
  | cons c cs ih =>
    intro acc h
    rw [closestOrderAux]
    split
    · exact closestOrderAux_isSome t oA claims cs _ rfl
    · rename_i hcond
      rcases h with ⟨c', hc', hq, hlt⟩
      rcases List.mem_cons.mp hc' with rfl | hmem
      · exact absurd ⟨hq.1, hlt, hq.2⟩ hcond
      · exact ih acc ⟨c', hmem, hq, hlt⟩

theorem closestOrderAux_sound (t : MintTrans) (oA : List Order) (claims : ClaimMap) :
    ∀ (cs : List Nat) (acc : Option Nat × ℤ),
      (∀ c, acc.1 = some c →
        ((|t.odate - (oA.getD c default).shipmentDate| < 4 ∧ claims c = none)
          ∧ acc.2 = |t.odate - (oA.getD c default).shipmentDate|)) →
      ∀ c, (closestOrderAux t oA claims cs acc).1 = some c →
        ((|t.odate - (oA.getD c default).shipmentDate| < 4 ∧ claims c = none)
          ∧ (closestOrderAux t oA claims cs acc).2
              = |t.odate - (oA.getD c default).shipmentDate|
          ∧ (c ∈ cs ∨ acc.1 = some c)) := by
  intro cs
  induction cs with
  | nil =>
    intro acc hinv c hres
    rcases hinv c hres with ⟨hq, hd⟩
    exact ⟨hq, hd, Or.inr hres⟩
  | cons x cs ih =>
    intro acc hinv c hres
    rw [closestOrderAux] at hres ⊢
    by_cases hcond : |t.odate - (oA.getD x default).shipmentDate| < 4
        ∧ |t.odate - (oA.getD x default).shipmentDate| < acc.2 ∧ claims x = none
    · rw [if_pos hcond] at hres ⊢
      have hinv2 : ∀ c2, (some x, |t.odate - (oA.getD x default).shipmentDate|).1 = some c2 →
          ((|t.odate - (oA.getD c2 default).shipmentDate| < 4 ∧ claims c2 = none)
            ∧ (some x, |t.odate - (oA.getD x default).shipmentDate|).2
                = |t.odate - (oA.getD c2 default).shipmentDate|) := by
        intro c2 h2
        injection h2 with h3
        subst h3
        exact ⟨⟨hcond.1, hcond.2.2⟩, rfl⟩
      rcases ih _ hinv2 c hres with ⟨hq, hd, hmem⟩
      refine ⟨hq, hd, ?_⟩
      rcases hmem with hmem | hmem
      · exact Or.inl (List.mem_cons_of_mem _ hmem)
      · injection hmem with h3
        subst h3
        exact Or.inl (List.mem_cons_self _ _)
    · rw [if_neg hcond] at hres ⊢
      rcases ih acc hinv c hres with ⟨hq, hd, hmem⟩
      refine ⟨hq, hd, ?_⟩
      rcases hmem with hmem | hmem
      · exact Or.inl (List.mem_cons_of_mem _ hmem)
      · exact Or.inr hmem

theorem closestOrderAux_min (t : MintTrans) (oA : List Order) (claims : ClaimMap) :
    ∀ (cs : List Nat) (acc : Option Nat × ℤ),
      (closestOrderAux t oA claims cs acc).2 ≤ acc.2
      ∧ ∀ c ∈ cs, (|t.odate - (oA.getD c default).shipmentDate| < 4 ∧ claims c = none) →
          (closestOrderAux t oA claims cs acc).2
            ≤ |t.odate - (oA.getD c default).shipmentDate| := by
  intro cs
  induction cs with
  | nil =>
    intro acc
    refine ⟨le_refl _, ?_⟩
    intro c hc
    cases hc
  | cons x cs ih =>
    intro acc
    rw [closestOrderAux]
    by_cases hcond : |t.odate - (oA.getD x default).shipmentDate| < 4
        ∧ |t.odate - (oA.getD x default).shipmentDate| < acc.2 ∧ claims x = none
    · rw [if_pos hcond]
      refine ⟨le_trans (ih _).1 (le_of_lt hcond.2.1), ?_⟩
      intro c hc hq
      rcases List.mem_cons.mp hc with rfl | hmem
      · exact (ih _).1
      · exact (ih _).2 c hmem hq
    · rw [if_neg hcond]
      refine ⟨(ih acc).1, ?_⟩
      intro c hc hq
      rcases List.mem_cons.mp hc with rfl | hmem
      · have hge : acc.2 ≤ |t.odate - (oA.getD c default).shipmentDate| := by
          by_contra hlt
          push_neg at hlt
          exact hcond ⟨hq.1, hlt, hq.2⟩
        exact le_trans (ih acc).1 hge
      · exact (ih acc).2 c hmem hq

theorem closestOrderAux_const (t : MintTrans) (oA : List Order) (claims : ClaimMap) :
    ∀ (cs : List Nat) (acc : Option Nat × ℤ),
      (∀ c ∈ cs, ¬(|t.odate - (oA.getD c default).shipmentDate| < 4 ∧ claims c = none)) →
      closestOrderAux t oA claims cs acc = acc := by
  intro cs
  induction cs with
  | nil =>
    intro acc _
    rfl
  | cons x cs ih =>
    intro acc h
    rw [closestOrderAux]
    rw [if_neg ?_]
    · exact ih acc (fun c hc => h c (List.mem_cons_of_mem _ hc))
    · intro hcond
      exact h x (List.mem_cons_self _ _) ⟨hcond.1, hcond.2.2⟩

/-- C2: in order matching, a candidate is eligible exactly when its absolute
day difference `|transaction order date - shipment date|` is below 4 (so
exactly 3 days is accepted, exactly 4 rejected) and it carries no
matched-transaction claim; with no eligible candidate the matcher returns
`none`, and a selected candidate is an eligible one minimizing the absolute
day difference over all eligible candidates. -/
theorem C2_order_selection :
    (∀ (t : MintTrans) (oA : List Order) (claims : ClaimMap) (cands : List Nat),
      findClosestOrder t oA claims cands = none
        ↔ ∀ c ∈ cands,
            ¬(|t.odate - (oA.getD c default).shipmentDate| < 4 ∧ claims c = none))
    ∧ (∀ (t : MintTrans) (oA : List Order) (claims : ClaimMap) (cands : List Nat) (c : Nat),
        findClosestOrder t oA claims cands = some c →
          c ∈ cands ∧ |t.odate - (oA.getD c default).shipmentDate| < 4 ∧ claims c = none
          ∧ ∀ c' ∈ cands,
              (|t.odate - (oA.getD c' default).shipmentDate| < 4 ∧ claims c' = none) →
              |t.odate - (oA.getD c default).shipmentDate|
                ≤ |t.odate - (oA.getD c' default).shipmentDate|)
    ∧ (∀ (t : MintTrans) (oA : List Order) (claims : ClaimMap) (c : Nat),
        claims c = none → |t.odate - (oA.getD c default).shipmentDate| = 3 →
        findClosestOrder t oA claims [c] = some c)
    ∧ (∀ (t : MintTrans) (oA : List Order) (claims : ClaimMap) (c : Nat),
        |t.odate - (oA.getD c default).shipmentDate| = 4 →
        findClosestOrder t oA claims [c] = none)
    ∧ (∀ (t : MintTrans) (oA : List Order) (claims : ClaimMap) (c v : Nat),
        claims c = some v → findClosestOrder t oA claims [c] = none) := by
  refine ⟨?_, ?_, ?_, ?_, ?_⟩
  · intro t oA claims cands
    constructor
    · intro hnone c hc hq
      have hfind := closestOrderAux_finds t oA claims cands (none, 365)
        ⟨c, hc, hq, lt_trans hq.1 (by norm_num)⟩
      rw [findClosestOrder] at hnone
      rw [hnone] at hfind
      simp at hfind
    · intro h
      rw [findClosestOrder, closestOrderAux_const t oA claims cands _ h]
  · intro t oA claims cands c hres
    rw [findClosestOrder] at hres
    rcases closestOrderAux_sound t oA claims cands (none, 365)
      (by intro c2 h2; cases h2) c hres with ⟨hq, hd, hmem⟩
    have hmem2 : c ∈ cands := by
      rcases hmem with hmem | hmem
      · exact hmem
      · cases hmem
    refine ⟨hmem2, hq.1, hq.2, ?_⟩
    intro c' hc' hq'
    have := (closestOrderAux_min t oA claims cands (none, 365)).2 c' hc' hq'
    rw [hd] at this
    exact this
  · intro t oA claims c hcl hd3
    have hq : |t.odate - (oA.getD c default).shipmentDate| < 4 ∧ claims c = none :=
      ⟨by rw [hd3]; norm_num, hcl⟩
    have hfind := closestOrderAux_finds t oA claims [c] (none, 365)
      ⟨c, List.mem_cons_self _ _, hq, by rw [hd3]; norm_num⟩
    rw [findClosestOrder]
    cases hres : (closestOrderAux t oA claims [c] (none, 365)).1 with
    | none =>
      rw [hres] at hfind
      simp at hfind
    | some c2 =>
      rcases closestOrderAux_sound t oA claims [c] (none, 365)
        (by intro c3 h3; cases h3) c2 hres with ⟨_, _, hmem⟩
      rcases hmem with hmem | hmem
      · rw [List.mem_singleton] at hmem
        rw [hmem]
      · cases hmem
  · intro t oA claims c hd4
    rw [findClosestOrder, closestOrderAux_const]
    intro c' hc'
    rw [List.mem_singleton] at hc'
    subst hc'
    intro hq
    rw [hd4] at hq
    exact absurd hq.1 (by norm_num)
  · intro t oA claims c v hcl
    rw [findClosestOrder, closestOrderAux_const]
    intro c' hc'
    rw [List.mem_singleton] at hc'
    subst hc'
    intro hq
    rw [hcl] at hq
    cases hq.2

/-- Closed witness for `C2_order_selection`: the boundary day difference of
exactly 3 is accepted. -/
theorem C2_order_selection_witness :
    findClosestOrder tC2 [oC5] (fun _ => none) [0] = some 0 :=
  C2_order_selection.2.2.1 tC2 [oC5] (fun _ => none) 0 rfl (by decide)

theorem firstOcc_foldl_absorb :
    ∀ (ks : List String) (k : String) (acc : List String),
      (∀ x ∈ ks, x = k) → k ∈ acc →
      ks.foldl (fun a x => if x ∈ a then a else a ++ [x]) acc = acc := by
  intro ks
  induction ks with
  | nil =>
    intro k acc _ _
    rfl
  | cons x ks ih =>
    intro k acc hall hk
    rw [List.foldl_cons]
    have hx : x = k := hall x (List.mem_cons_self _ _)
    rw [if_pos (by rw [hx]; exact hk)]
    exact ih k acc (fun y hy => hall y (List.mem_cons_of_mem _ hy)) hk

theorem firstOcc_all_eq (k : String) (ks : List String) (hall : ∀ x ∈ ks, x = k) :
    firstOcc (k :: ks) = [k] := by
  rw [firstOcc, List.foldl_cons]
  rw [if_neg (by intro h; cases h)]
  exact firstOcc_foldl_absorb ks k [k] hall (List.mem_cons_self _ _)

theorem firstOcc_foldl_nodup :
    ∀ (ks : List String) (acc : List String),
      ks.Pairwise (fun a b => a ≠ b) → (∀ x ∈ ks, x ∉ acc) →
      ks.foldl (fun a x => if x ∈ a then a else a ++ [x]) acc = acc ++ ks := by
  intro ks
  induction ks with
  | nil =>
    intro acc _ _
    simp
  | cons x ks ih =>
    intro acc hpw hnin
    rw [List.foldl_cons, if_neg (hnin x (List.mem_cons_self _ _))]
    rw [ih (acc ++ [x]) (List.Pairwise.of_cons hpw) ?_]
    · simp
    · intro y hy hmem
      rcases List.mem_append.mp hmem with hmem | hmem
      · exact hnin y (List.mem_cons_of_mem _ hy) hmem
      · rw [List.mem_singleton] at hmem
        exact (List.rel_of_pairwise_cons hpw hy) hmem.symm

theorem firstOcc_nodup (ks : List String) (hpw : ks.Pairwise (fun a b => a ≠ b)) :
    firstOcc ks = ks := by
  rw [firstOcc, firstOcc_foldl_nodup ks [] hpw (by intro x _ h; cases h)]
  simp

theorem collapseCore_nodup :
    ∀ l : List Refund, (l.map refundKey).Pairwise (fun a b => a ≠ b) →
      ((l.map refundKey).map
        (fun k => collapseGroup (l.filter (fun i => refundKey i = k)))).flatten = l := by
  intro l
  induction l with
  | nil =>
    intro _
    rfl
  | cons r rest ih =>
    intro hpw
    rw [List.map_cons] at hpw ⊢
    have hhead : ∀ k ∈ rest.map refundKey, refundKey r ≠ k :=
      fun k hk => List.rel_of_pairwise_cons hpw hk
    have hfr : (r :: rest).filter (fun i => refundKey i = refundKey r) = [r] := by
      rw [List.filter_cons_of_pos (by simp)]
      rw [List.filter_eq_nil_iff.mpr ?_]
      intro x hx
      simp only [decide_eq_true_eq]
      intro hx2
      exact hhead (refundKey x) (List.mem_map_of_mem _ hx) hx2.symm
    have hrest : ∀ k ∈ rest.map refundKey,
        (r :: rest).filter (fun i => refundKey i = k) = rest.filter (fun i => refundKey i = k) := by
      intro k hk
      rw [List.filter_cons_of_neg (by simp only [decide_eq_true_eq]; exact hhead k hk)]
    rw [List.map_cons, hfr]
    have hmaps : (rest.map refundKey).map
        (fun k => collapseGroup ((r :: rest).filter (fun i => refundKey i = k)))
        = (rest.map refundKey).map
          (fun k => collapseGroup (rest.filter (fun i => refundKey i = k))) := by
      apply List.map_congr_left
      intro k hk
      rw [hrest k hk]
    rw [hmaps, List.flatten_cons, ih (List.Pairwise.of_cons hpw)]
    rfl

/-- C7: refund collapsing — a list of at most one row is returned as-is;
rows with pairwise distinct grouping keys (no duplicates) are returned
unchanged; and `N > 1` rows sharing the grouping key (refund date, reason,
title, total refund amount, item id, quantity), each with quantity 1,
collapse in place to the single first row with quantity `N` and each
monetary field multiplied by `N`. -/
theorem C7_refund_collapsing :
    (∀ l : List Refund, l.length ≤ 1 → collapse_items_into_quantity l = l)
    ∧ (∀ l : List Refund, (l.map refundKey).Pairwise (fun a b => a ≠ b) →
        collapse_items_into_quantity l = l)
    ∧ (∀ (r0 : Refund) (rest : List Refund), rest ≠ [] → r0.quantity = 1 →
        (∀ r ∈ r0 :: rest, refundKey r = refundKey r0) →
        collapse_items_into_quantity (r0 :: rest)
          = [{ r0 with
               quantity := (r0 :: rest).length
               totalRefundAmount := r0.totalRefundAmount * (((r0 :: rest).length : ℕ) : ℚ)
               refundAmount := r0.refundAmount * (((r0 :: rest).length : ℕ) : ℚ)
               refundTaxAmount := r0.refundTaxAmount * (((r0 :: rest).length : ℕ) : ℚ) }]) := by
  refine ⟨?_, ?_, ?_⟩
  · intro l hl
    rw [collapse_items_into_quantity, if_pos hl]
  · intro l hpw
    by_cases hl : l.length ≤ 1
    · rw [collapse_items_into_quantity, if_pos hl]
    · rw [collapse_items_into_quantity, if_neg hl, firstOcc_nodup _ hpw,
        collapseCore_nodup l hpw]
  · intro r0 rest hne hq1 hall
    have hlen : ¬(r0 :: rest).length ≤ 1 := by
      have := List.length_pos.mpr hne
      simp only [List.length_cons]
      omega
    rw [collapse_items_into_quantity, if_neg hlen]
    have hkeys : firstOcc ((r0 :: rest).map refundKey) = [refundKey r0] := by
      rw [List.map_cons]
      apply firstOcc_all_eq
      intro x hx
      rcases List.mem_map.mp hx with ⟨y, hy, rfl⟩
      exact hall y (List.mem_cons_of_mem _ hy)
    rw [hkeys]
    have hfil : (r0 :: rest).filter (fun i => refundKey i = refundKey r0) = r0 :: rest := by
      rw [List.filter_eq_self]
      intro a ha
      simp only [decide_eq_true_eq]
      exact hall a ha
    simp only [List.map_cons, List.map_nil, hfil, List.flatten_cons, List.flatten_nil,
      List.append_nil]
    rw [collapseGroup, if_neg (by
      simp only [List.length_cons]
      have := List.length_pos.mpr hne
      omega)]
    have h1 : qMul r0.totalRefundAmount (mkRat (((r0 :: rest).length : ℕ) : ℤ) 1)
        = r0.totalRefundAmount * (((r0 :: rest).length : ℕ) : ℚ) := by
      rw [qMul_eq, Rat.mkRat_one]
      norm_cast
    have h2 : qMul r0.refundAmount (mkRat (((r0 :: rest).length : ℕ) : ℤ) 1)
        = r0.refundAmount * (((r0 :: rest).length : ℕ) : ℚ) := by
      rw [qMul_eq, Rat.mkRat_one]
      norm_cast
    have h3 : qMul r0.refundTaxAmount (mkRat (((r0 :: rest).length : ℕ) : ℤ) 1)
        = r0.refundTaxAmount * (((r0 :: rest).length : ℕ) : ℚ) := by
      rw [qMul_eq, Rat.mkRat_one]
      norm_cast
    rw [h1, h2, h3]

/-- Closed witness for `C7_refund_collapsing`: two duplicate quantity-1
refund rows collapse to one row of quantity 2 with doubled amounts. -/
theorem C7_refund_collapsing_witness :
    collapse_items_into_quantity [rC9a, rC9a]
      = [{ rC9a with
           quantity := ([rC9a, rC9a] : List Refund).length
           totalRefundAmount := rC9a.totalRefundAmount * ((([rC9a, rC9a] : List Refund).length : ℕ) : ℚ)
           refundAmount := rC9a.refundAmount * ((([rC9a, rC9a] : List Refund).length : ℕ) : ℚ)
           refundTaxAmount := rC9a.refundTaxAmount * ((([rC9a, rC9a] : List Refund).length : ℕ) : ℚ) }] :=
  C7_refund_collapsing.2.2 rC9a [rC9a] (by decide) (by decide) (by decide)

theorem closestRefundAux_sound (t : MintTrans) (rA : List Refund) (claims : ClaimMap) :
    ∀ (gs : List (List Nat)) (acc : Option (List Nat) × ℤ),
      (∀ g2, acc.1 = some g2 → ∀ m ∈ g2, claims m = none) →
      ∀ acc2, closestRefundAux t rA claims gs acc = Except.ok acc2 →
        ∀ g2, acc2.1 = some g2 → ∀ m ∈ g2, claims m = none := by
  intro gs
  induction gs with
  | nil =>
    intro acc hinv acc2 hok
    rw [closestRefundAux] at hok
    injection hok with hok
    rw [← hok]
    exact hinv
  | cons g gs ih =>
    intro acc hinv acc2 hok
    rw [closestRefundAux] at hok
    cases hfind : g.find? (fun i => (rA.getD i default).refundDate.isSome) with
    | none =>
      rw [hfind] at hok
      cases hok
    | some i0 =>
      rw [hfind] at hok
      dsimp only at hok
      by_cases hcond : |t.odate - (rA.getD i0 default).refundDate.getD 0| < 4
          ∧ |t.odate - (rA.getD i0 default).refundDate.getD 0| < acc.2
          ∧ g.all (fun m => (claims m).isNone) = true
      · rw [if_pos hcond] at hok
        refine ih _ ?_ acc2 hok
        intro g2 hg2 m hm
        injection hg2 with hg2
        subst hg2
        have := List.all_eq_true.mp hcond.2.2 m hm
        exact Option.isNone_iff_eq_none.mp (by exact this)
      · rw [if_neg hcond] at hok
        exact ih acc hinv acc2 hok

theorem findClosestRefundGroup_unclaimed (t : MintTrans) (rA : List Refund)
    (claims : ClaimMap) (groups : List (List Nat)) (g : List Nat) :
    findClosestRefundGroup t rA claims groups = Except.ok (some g) →
    ∀ m ∈ g, claims m = none := by
  intro h
  rw [findClosestRefundGroup] at h
  cases hok : closestRefundAux t rA claims groups (none, 365) with
  | error e =>
    rw [hok] at h
    cases h
  | ok acc2 =>
    rw [hok] at h
    injection h with h2
    exact closestRefundAux_sound t rA claims groups (none, 365)
      (by intro g2 hg2; cases hg2) acc2 hok g h2

theorem findClosestOrder_unclaimed (t : MintTrans) (oA : List Order) (claims : ClaimMap)
    (cands : List Nat) (oi : Nat) :
    findClosestOrder t oA claims cands = some oi → claims oi = none := by
  intro h
  rw [findClosestOrder] at h
  exact (closestOrderAux_sound t oA claims cands (none, 365)
    (by intro c2 h2; cases h2) oi h).1.2

theorem tag_as_order_claims_shape (cfg : Config) (fuel : Nat) (oA : List Order)
    (cands : List Nat) (store : List Item) (claims : ClaimMap) (stats : Stats)
    (tIdx : Nat) (t : MintTrans) :
    (tag_as_order cfg fuel oA cands store claims stats tIdx t).claims = claims
    ∨ ∃ oi, findClosestOrder t oA claims cands = some oi
        ∧ (tag_as_order cfg fuel oA cands store claims stats tIdx t).claims
            = claimSet claims oi tIdx := by
  simp only [tag_as_order]
  cases hfc : findClosestOrder t oA claims cands with
  | none => exact Or.inl rfl
  | some oi =>
    dsimp only
    refine Or.inr ⟨oi, rfl, ?_⟩
    rcases h1 : resolveItems store (oA.getD oi default)
        { stats with order_match := stats.order_match + 1 } with ⟨r1, stats2⟩
    cases r1 with
    | error e => rfl
    | ok o1 =>
      cases o1 with
      | none => rfl
      | some refs0 =>
        dsimp only
        rcases h2 : subtotalFix store (oA.getD oi default)
            (sortByTotalDesc store refs0) stats2 with ⟨r2, stats3⟩
        cases r2 with
        | error e => rfl
        | ok o2 =>
          cases o2 with
          | none => rfl
          | some refs2 =>
            dsimp only
            rcases h3 : reconcileStep cfg fuel store refs2
                (synthesizeLines cfg store t (oA.getD oi default) refs2) t
                (oA.getD oi default) stats3 with ⟨store2, stats4, r3⟩
            cases r3 with
            | error e => rfl
            | ok lines2 => rfl

theorem tag_as_refund_claims_shape (cfg : Config) (rA : List Refund)
    (groups : List (List Nat)) (claims : ClaimMap) (stats : Stats) (tIdx : Nat)
    (t : MintTrans) :
    (tag_as_refund cfg rA groups claims stats tIdx t).claims = claims
    ∨ ∃ g, findClosestRefundGroup t rA claims groups = Except.ok (some g)
        ∧ (tag_as_refund cfg rA groups claims stats tIdx t).claims
            = claimSetAll claims g tIdx := by
  simp only [tag_as_refund]
  cases hfg : findClosestRefundGroup t rA claims groups with
  | error e => exact Or.inl rfl
  | ok o =>
    cases o with
    | none => exact Or.inl rfl
    | some g => exact Or.inr ⟨g, rfl, rfl⟩

theorem tag_as_order_claims_mono {cfg : Config} {fuel : Nat} {oA : List Order}
    {cands : List Nat} {store : List Item} {claims : ClaimMap} {stats : Stats}
    {tIdx : Nat} {t : MintTrans} {i v : Nat} (h : claims i = some v) :
    (tag_as_order cfg fuel oA cands store claims stats tIdx t).claims i = some v := by
  rcases tag_as_order_claims_shape cfg fuel oA cands store claims stats tIdx t with
    heq | ⟨oi, hfc, heq⟩
  · rw [heq]
    exact h
  · rw [heq, claimSet]
    by_cases hio : i = oi
    · subst hio
      rw [findClosestOrder_unclaimed t oA claims cands i hfc] at h
      cases h
    · rw [if_neg hio]
      exact h

theorem tag_as_refund_claims_mono {cfg : Config} {rA : List Refund}
    {groups : List (List Nat)} {claims : ClaimMap} {stats : Stats} {tIdx : Nat}
    {t : MintTrans} {i v : Nat} (h : claims i = some v) :
    (tag_as_refund cfg rA groups claims stats tIdx t).claims i = some v := by
  rcases tag_as_refund_claims_shape cfg rA groups claims stats tIdx t with
    heq | ⟨g, hfg, heq⟩
  · rw [heq]
    exact h
  · rw [heq, claimSetAll]
    by_cases hig : i ∈ g
    · rw [findClosestRefundGroup_unclaimed t rA claims groups g hfg i hig] at h
      cases h
    · rw [if_neg hig]
      exact h

theorem run_ordClaims_mono (cfg : Config) (fuel : Nat) (oA : List Order) (rA : List Refund) :
    ∀ (ts : List MintTrans) (n : Nat) (s : RunSt) (acc : List (MintTrans × List MintTrans))
      (i v : Nat), s.ordClaims i = some v →
      (tag_transactions_loop cfg fuel oA rA ts n s acc).s.ordClaims i = some v := by
  intro ts
  induction ts with
  | nil =>
    intro n s acc i v h
    exact h
  | cons t ts ih =>
    intro n s acc i v h
    rw [tag_transactions_loop]
    dsimp only
    split
    · split
      · exact tag_as_order_claims_mono h
      · exact ih _ _ _ _ _ (tag_as_order_claims_mono h)
      · split
        · exact ih _ _ _ _ _ (tag_as_order_claims_mono h)
        · split
          · exact ih _ _ _ _ _ (tag_as_order_claims_mono h)
          · split
            · exact tag_as_order_claims_mono h
            · exact ih _ _ _ _ _ (tag_as_order_claims_mono h)
    · split
      · split
        · exact h
        · exact ih _ _ _ _ _ h
        · split
          · exact ih _ _ _ _ _ h
          · split
            · exact ih _ _ _ _ _ h
            · split
              · exact h
              · exact ih _ _ _ _ _ h
      · exact ih _ _ _ _ _ h

theorem run_refClaims_mono (cfg : Config) (fuel : Nat) (oA : List Order) (rA : List Refund) :
    ∀ (ts : List MintTrans) (n : Nat) (s : RunSt) (acc : List (MintTrans × List MintTrans))
      (i v : Nat), s.refClaims i = some v →
      (tag_transactions_loop cfg fuel oA rA ts n s acc).s.refClaims i = some v := by
  intro ts
  induction ts with
  | nil =>
    intro n s acc i v h
    exact h
  | cons t ts ih =>
    intro n s acc i v h
    rw [tag_transactions_loop]
    dsimp only
    split
    · split
      · exact h
      · exact ih _ _ _ _ _ h
      · split
        · exact ih _ _ _ _ _ h
        · split
          · exact ih _ _ _ _ _ h
          · split
            · exact h
            · exact ih _ _ _ _ _ h
    · split
      · split
        · exact tag_as_refund_claims_mono h
        · exact ih _ _ _ _ _ (tag_as_refund_claims_mono h)
        · split
          · exact ih _ _ _ _ _ (tag_as_refund_claims_mono h)
          · split
            · exact ih _ _ _ _ _ (tag_as_refund_claims_mono h)
            · split
              · exact tag_as_refund_claims_mono h
              · exact ih _ _ _ _ _ (tag_as_refund_claims_mono h)
      · exact ih _ _ _ _ _ h

/-- C8: the at-most-one-match invariant of the matching loop — an order or
refund claim flag, once set to a transaction, keeps that exact value through
the rest of the run (so it is set at most once); the order selector only
ever returns an unclaimed order; and the refund selector only ever returns
a group none of whose members is claimed (a group with any claimed member is
skipped). -/
theorem C8_at_most_once :
    (∀ (cfg : Config) (fuel : Nat) (oA : List Order) (rA : List Refund)
       (ts : List MintTrans) (n : Nat) (s : RunSt)
       (acc : List (MintTrans × List MintTrans)) (i v : Nat),
       s.ordClaims i = some v →
       (tag_transactions_loop cfg fuel oA rA ts n s acc).s.ordClaims i = some v)
    ∧ (∀ (cfg : Config) (fuel : Nat) (oA : List Order) (rA : List Refund)
       (ts : List MintTrans) (n : Nat) (s : RunSt)
       (acc : List (MintTrans × List MintTrans)) (i v : Nat),
       s.refClaims i = some v →
       (tag_transactions_loop cfg fuel oA rA ts n s acc).s.refClaims i = some v)
    ∧ (∀ (t : MintTrans) (oA : List Order) (claims : ClaimMap) (cands : List Nat) (oi : Nat),
       findClosestOrder t oA claims cands = some oi → claims oi = none)
    ∧ (∀ (t : MintTrans) (rA : List Refund) (claims : ClaimMap)
       (groups : List (List Nat)) (g : List Nat),
       findClosestRefundGroup t rA claims groups = Except.ok (some g) →
       ∀ m ∈ g, claims m = none) :=
  ⟨fun cfg fuel oA rA => run_ordClaims_mono cfg fuel oA rA,
   fun cfg fuel oA rA => run_refClaims_mono cfg fuel oA rA,
   findClosestOrder_unclaimed,
   findClosestRefundGroup_unclaimed⟩

/-- Closed witness for `C8_at_most_once`: an order claimed before the run is
still claimed by the same transaction after a run that matches a refund. -/
theorem C8_at_most_once_witness :
    (tag_transactions_loop cfg0 10 [] [rC9a, rC9b] [tC9a] 0
      ⟨[], claimSet (fun _ => none) 0 5, fun _ => none, stats0⟩ []).s.ordClaims 0 = some 5 :=
  C8_at_most_once.1 cfg0 10 [] [rC9a, rC9b] [tC9a] 0
    ⟨[], claimSet (fun _ => none) 0 5, fun _ => none, stats0⟩ [] 0 5 (by decide)

/-- C9: the two same-order refunds with different dates and totals
1,000,000 / 2,000,000 are indexed as two independent singleton groups under
their own amounts (with the order-level merged group additionally filed
under 3,000,000 per the three-source rule), and a run with the two separate
credit transactions matches each singleton separately, claiming each refund
for its own transaction; moreover every group in the index comes from one
of the three sources (a singleton; a full order-id group with more than one
member spanning more than one distinct date; a full same-day group with
more than one member), filed under its total. -/
theorem C9_refund_index :
    (amount_to_refunds [rC9a, rC9b] 1000000 = [[0]]
      ∧ amount_to_refunds [rC9a, rC9b] 2000000 = [[1]]
      ∧ amount_to_refunds [rC9a, rC9b] 3000000 = [[0, 1]]
      ∧ ((tag_transactions_loop cfg0 10 [] [rC9a, rC9b] [tC9a, tC9b] 0 runSt0 []).result.map
          (fun p => (p.1.amount, p.2.map (fun l => l.amount))))
          = [(-1000000, [-1000000]), (-2000000, [-2000000])]
      ∧ (tag_transactions_loop cfg0 10 [] [rC9a, rC9b] [tC9a, tC9b] 0 runSt0 []).s.refClaims 0
          = some 0
      ∧ (tag_transactions_loop cfg0 10 [] [rC9a, rC9b] [tC9a, tC9b] 0 runSt0 []).s.refClaims 1
          = some 1)
    ∧ (∀ (rA : List Refund) (a : ℚ) (g : List Nat), g ∈ amount_to_refunds rA a →
        (∃ i, g = [i] ∧ (rA.getD i default).totalRefundAmount = a)
        ∨ (∃ oid, g = orderGroup rA oid ∧ g.length ≠ 1 ∧ 1 < distinctDateCount rA g
            ∧ refundTotalOfIdxs rA g = a)
        ∨ (∃ k, g = sameDayGroup rA k ∧ g.length ≠ 1 ∧ refundTotalOfIdxs rA g = a)) := by
  constructor
  · exact ⟨by decide, by decide, by decide, by decide, by decide, by decide⟩
  · intro rA a g hmem
    rw [amount_to_refunds] at hmem
    rcases List.mem_append.mp hmem with h | h
    · rcases List.mem_append.mp h with h | h
      · rcases List.mem_map.mp h with ⟨i, hi, rfl⟩
        rcases List.mem_filter.mp hi with ⟨_, hp⟩
        rw [decide_eq_true_eq] at hp
        exact Or.inl ⟨i, rfl, hp⟩
      · rcases List.mem_filter.mp h with ⟨hmap, hp⟩
        rcases List.mem_map.mp hmap with ⟨oid, _, rfl⟩
        rw [decide_eq_true_eq] at hp
        refine Or.inr (Or.inl ⟨oid, rfl, hp.1, ?_, hp.2.2⟩)
        omega
    · rcases List.mem_filter.mp h with ⟨hmap, hp⟩
      rcases List.mem_map.mp hmap with ⟨k, _, rfl⟩
      rw [decide_eq_true_eq] at hp
      exact Or.inr (Or.inr ⟨k, rfl, hp.1, hp.2⟩)

/-- Closed witness for `C9_refund_index`: the singleton group `[0]` filed
under 1,000,000 comes from the singleton source. -/
theorem C9_refund_index_witness :
    (∃ i, ([0] : List Nat) = [i]
      ∧ (([rC9a, rC9b] : List Refund).getD i default).totalRefundAmount = 1000000)
    ∨ (∃ oid, ([0] : List Nat) = orderGroup [rC9a, rC9b] oid
        ∧ ([0] : List Nat).length ≠ 1
        ∧ 1 < distinctDateCount [rC9a, rC9b] [0]
        ∧ refundTotalOfIdxs [rC9a, rC9b] [0] = 1000000)
    ∨ (∃ k, ([0] : List Nat) = sameDayGroup [rC9a, rC9b] k
        ∧ ([0] : List Nat).length ≠ 1
        ∧ refundTotalOfIdxs [rC9a, rC9b] [0] = 1000000) :=
  C9_refund_index.2 [rC9a, rC9b] 1000000 [0] (by decide)
